import Mathlib

/-!
# Verification of the Pattern/Intelligence Engine (src/storage/PatternDetector.js)

Shallow embedding of the Pattern Engine of the 4rensic analyzer, translated
from `src/storage/PatternDetector.js` (v2.0.0).

Modelling conventions:

* JavaScript numbers are modelled as exact rationals (`ℚ`).  All constants in
  the source (`1.2`, `0.8`, `5`, `60`, `100`) are short decimals, and the
  quantities the claims inspect are either integers, halves, or values far from
  rounding-tie boundaries, so the exact-decimal idealization agrees with IEEE
  double behaviour on every input a claim touches.
* A JavaScript object used as a string-keyed dictionary (`defectCounts`,
  `issueTypeCounts`) and the `Map` `successRates` are modelled as
  insertion-ordered association lists; JS preserves insertion order for such
  keys (the keys built here always contain `|` or are defect-type names, never
  canonical integer strings).
* `Array.prototype.sort` is stable (ES2019).  A stable sort by a comparator
  `cmp` is modelled by `List.insertionSort r` where `r a b ↔ cmp a b ≤ 0`
  (Mathlib's `insertionSort` keeps an earlier element before a later one
  exactly when `r` holds, which matches stable-sort semantics whenever the
  comparator induces a total preorder).
* Fields that a JS object may lack are `Option`-valued; `none` plays the role
  of `undefined`/`null`.  Records with shapes outside this typed domain
  (e.g. a truthy non-array `findings`) are treated separately by an untyped
  `JsVal` model of the extraction code path, with JS `TypeError`s made
  explicit as `Except` errors.
-/

/-- Helper giving JS `v || dflt` for an optional string: `undefined`, `null`
and the empty string are falsy, any other string is truthy. -/
def jsOrStr (v : Option String) (dflt : String) : String :=
  match v with
  | none => dflt
  | some s => if s = "" then dflt else s

/-- ASCII lower-casing of one character, as done by `String.prototype.toLowerCase`
on the ASCII defect-type strings this code matches against. -/
def lowerChar (c : Char) : Char :=
  match c with
  | 'A' => 'a' | 'B' => 'b' | 'C' => 'c' | 'D' => 'd' | 'E' => 'e' | 'F' => 'f'
  | 'G' => 'g' | 'H' => 'h' | 'I' => 'i' | 'J' => 'j' | 'K' => 'k' | 'L' => 'l'
  | 'M' => 'm' | 'N' => 'n' | 'O' => 'o' | 'P' => 'p' | 'Q' => 'q' | 'R' => 'r'
  | 'S' => 's' | 'T' => 't' | 'U' => 'u' | 'V' => 'v' | 'W' => 'w' | 'X' => 'x'
  | 'Y' => 'y' | 'Z' => 'z' | other => other

/-- Model of `String.prototype.toLowerCase` (ASCII range). -/
def strLower (s : String) : String := String.mk (s.data.map lowerChar)

/-- Helper for substring search: does `l` start with `pat`? -/
def charsStartWith : List Char → List Char → Bool
  | [], _ => true
  | _ :: _, [] => false
  | p :: ps, c :: cs => p == c && charsStartWith ps cs

/-- Helper for substring search: does `l` contain `pat` as a contiguous run? -/
def charsContain : List Char → List Char → Bool
  | [], pat => pat.isEmpty
  | c :: cs, pat => charsStartWith pat (c :: cs) || charsContain cs pat

/-- Model of `String.prototype.includes`. -/
def strIncludes (s sub : String) : Bool := charsContain s.data sub.data

/-- Model of `Math.round` (round half toward positive infinity). -/
def jsRound (q : ℚ) : ℤ := ⌊q + 1/2⌋

/-- Numeric value of `x.toFixed(1)` re-read as a number (`parseFloat` of the
formatted string, or the string used in further arithmetic): rounding to one
decimal place, half away from zero on the nonnegative values that occur here. -/
def round1 (q : ℚ) : ℚ := (⌊q * 10 + 1/2⌋ : ℚ) / 10

/-- Model of `x.toFixed(1)` for the nonnegative numbers this program formats. -/
def jsToFixed1 (q : ℚ) : String :=
  let n : ℤ := ⌊q * 10 + 1/2⌋
  toString (n / 10) ++ "." ++ toString (n % 10)

/-- Helper reading a decimal digit. -/
def digitVal (c : Char) : Nat := c.toNat - '0'.toNat

/-- Helper reading a string of decimal digits. -/
def strToNat (s : String) : Nat := s.data.foldl (fun n c => n * 10 + digitVal c) 0

/-- Model of `parseFloat` restricted to the `"<digits>.<digits>"` strings that
`jsToFixed1` produces (the only strings this program feeds back into
arithmetic); anything else is mapped to 0. -/
def parseFixed1 (s : String) : ℚ :=
  match s.splitOn "." with
  | [a, b] => (strToNat a : ℚ) + (strToNat b : ℚ) / ((10 : ℚ) ^ b.length)
  | [a] => (strToNat a : ℚ)
  | _ => 0

/-- Arithmetic mean of a list of natural counts, as a rational.  Every use in
the source divides by a provably positive length. -/
def ratAvg (l : List Nat) : ℚ := ((l.sum : ℚ)) / (l.length : ℚ)

/-- Defect: a single finding instance inside an analysis record
(fields read by PatternDetector.js: type, severity, statute, description). -/
structure Defect where
  type : String
  severity : Option String := none
  statute : Option String := none
  description : Option String := none
deriving Repr, DecidableEq

/-- One phase entry under `phases.presetAnalysis`; only its `findings` field is
read (`p.findings || []`, line 42). -/
structure PresetPhase where
  findings : Option (List Defect) := none
deriving Repr, DecidableEq

/-- The `phases` grouping object; only `presetAnalysis` is read. -/
structure PhaseInfo where
  presetAnalysis : Option (List PresetPhase) := none
deriving Repr, DecidableEq

/-- AnalysisRecord: one stored analysis, with the fields PatternDetector.js
reads (`id`, `timestamp`, `findings`, `phases`). -/
structure AnalysisRecord where
  id : Nat := 0
  timestamp : String := ""
  findings : Option (List Defect) := none
  phases : Option PhaseInfo := none
deriving Repr, DecidableEq

/-- Fallback part of the extraction expression (PatternDetector.js line 42):
`analysis.phases?.presetAnalysis?.flatMap(p => p.findings || []) || []`. -/
def phaseFindings (a : AnalysisRecord) : List Defect :=
  match a.phases with
  | none => []
  | some ph =>
    match ph.presetAnalysis with
    | none => []
    | some ps => ps.flatMap (fun p => p.findings.getD [])

/-- Finding extraction used by every Pattern Engine operation
(PatternDetector.js lines 42, 88, 219-220, 225, 265):
`analysis.findings || analysis.phases?.presetAnalysis?.flatMap(p => p.findings || []) || []`.
A JS array is always truthy, so a present `findings` field short-circuits the
`||` chain and the phase fallback is consulted only when `findings` is
absent (nullish). -/
def extractFindings (a : AnalysisRecord) : List Defect :=
  match a.findings with
  | some l => l
  | none => phaseFindings a

/-- Grouping key of line 45: `` `${defect.type}|${defect.statute || 'unknown'}` ``. -/
def defectKey (d : Defect) : String := d.type ++ "|" ++ jsOrStr d.statute "unknown"

/-- One aggregated recurring-defect group (the `defectCounts[key]` record of
lines 47-56). -/
structure DefectGroup where
  type : String
  statute : Option String := none
  severity : Option String := none
  count : Nat := 0
  firstSeen : String := ""
  lastSeen : String := ""
  descriptions : List (Option String) := []
  analysisIds : List Nat := []
deriving Repr, DecidableEq

/-- The key a group answers to, mirroring `defectKey` on its stored fields. -/
def groupKey (g : DefectGroup) : String := g.type ++ "|" ++ jsOrStr g.statute "unknown"

/-- Fresh group as created on lines 47-56 (before the `count++` etc.). -/
def newGroup (a : AnalysisRecord) (d : Defect) : DefectGroup :=
  { type := d.type, statute := d.statute, severity := d.severity, count := 0,
    firstSeen := a.timestamp, lastSeen := a.timestamp, descriptions := [], analysisIds := [] }

/-- The unconditional per-occurrence updates of lines 58-61. -/
def bumpGroup (a : AnalysisRecord) (d : Defect) (g : DefectGroup) : DefectGroup :=
  { g with
    count := g.count + 1,
    lastSeen := a.timestamp,
    descriptions := g.descriptions ++ [d.description],
    analysisIds := g.analysisIds ++ [a.id] }

/-- Processing of one defect occurrence by the loop body of lines 44-62 over
the insertion-ordered dictionary `defectCounts`. -/
def addDefect (gs : List (String × DefectGroup)) (a : AnalysisRecord) (d : Defect) :
    List (String × DefectGroup) :=
  let k := defectKey d
  if gs.any (fun p => p.1 == k) then
    gs.map (fun p => if p.1 == k then (p.1, bumpGroup a d p.2) else p)
  else
    gs ++ [(k, bumpGroup a d (newGroup a d))]

/-- The nested `analyses.forEach / findings.forEach` iteration of lines 41-63,
flattened to the sequence of (record, defect) occurrences it visits. -/
def analysisDefectPairs (analyses : List AnalysisRecord) : List (AnalysisRecord × Defect) :=
  analyses.flatMap (fun a => (extractFindings a).map (fun d => (a, d)))

/-- The fully built `defectCounts` dictionary of lines 39-63. -/
def defectCountsOf (analyses : List AnalysisRecord) : List (String × DefectGroup) :=
  (analysisDefectPairs analyses).foldl (fun gs p => addDefect gs p.1 p.2) []

/-- Nonstrict order induced by the comparator `(a, b) => b.count - a.count`
of line 68. -/
def countDesc (a b : DefectGroup) : Prop := b.count ≤ a.count

instance : DecidableRel countDesc := fun a b => Nat.decLe b.count a.count

instance : IsTotal DefectGroup countDesc := ⟨fun a b => Nat.le_total b.count a.count⟩

instance : IsTrans DefectGroup countDesc := ⟨fun _ _ _ h h' => Nat.le_trans h' h⟩

/-- findRecurringDefects (lines 38-69): group all extracted defect occurrences
by (type, statute-or-unknown), keep groups with count ≥ 3, sort by count
descending (stable). -/
def findRecurringDefects (analyses : List AnalysisRecord) : List DefectGroup :=
  List.insertionSort countDesc
    (((defectCountsOf analyses).map (fun p => p.2)).filter (fun g => 3 ≤ g.count))

/-- Number of occurrences of grouping key `k` among all extracted findings. -/
def keyOccurrences (analyses : List AnalysisRecord) (k : String) : Nat :=
  ((analyses.flatMap extractFindings).filter (fun d => defectKey d == k)).length

/-- Result shape of analyzeTrends: a JS object whose fields depend on the
branch taken (`status`/`analysisCount` for the insufficient-data sentinel,
`direction`/`recommendation`/`severity`/`firstAvg`/`secondAvg` otherwise). -/
structure TrendResult where
  status : Option String := none
  message : String := ""
  analysisCount : Option Nat := none
  direction : Option String := none
  recommendation : Option String := none
  severity : Option String := none
  firstAvg : Option String := none
  secondAvg : Option String := none
deriving Repr, DecidableEq

/-- Count of HIGH/CRITICAL findings of one record (line 89). -/
def hiSevCount (a : AnalysisRecord) : Nat :=
  ((extractFindings a).filter
    (fun d => d.severity == some "HIGH" || d.severity == some "CRITICAL")).length

/-- The last five records, `analyses.slice(-5)` (line 86). -/
def recentOf (analyses : List AnalysisRecord) : List AnalysisRecord :=
  analyses.drop (analyses.length - 5)

/-- The per-record high-severity counts of the recent window (lines 87-90). -/
def severityCountsOf (analyses : List AnalysisRecord) : List Nat :=
  (recentOf analyses).map hiSevCount

/-- First half of the severity counts (line 93). -/
def firstHalfOf (analyses : List AnalysisRecord) : List Nat :=
  (severityCountsOf analyses).take ((severityCountsOf analyses).length / 2)

/-- Second half of the severity counts (line 94). -/
def secondHalfOf (analyses : List AnalysisRecord) : List Nat :=
  (severityCountsOf analyses).drop ((severityCountsOf analyses).length / 2)

/-- `firstAvg` of line 96. -/
def firstAvgOf (analyses : List AnalysisRecord) : ℚ := ratAvg (firstHalfOf analyses)

/-- `secondAvg` of line 97. -/
def secondAvgOf (analyses : List AnalysisRecord) : ℚ := ratAvg (secondHalfOf analyses)

/-- Percent shown in the WORSENING message (line 102):
`Math.round((secondAvg / firstAvg - 1) * 100)`.  When `firstAvg` is zero the
JS division yields `Infinity` (the branch is reachable with `firstAvg = 0`
because `secondAvg > 0 * 1.2` holds for any positive `secondAvg`), and the
string interpolation renders it as `"Infinity"`. -/
def worseningPercentStr (firstAvg secondAvg : ℚ) : String :=
  if firstAvg = 0 then "Infinity"
  else toString (jsRound ((secondAvg / firstAvg - 1) * 100))

/-- analyzeTrends (lines 76-127). -/
def analyzeTrends (analyses : List AnalysisRecord) : TrendResult :=
  if analyses.length < 3 then
    { status := some "insufficient_data",
      message := "Need at least 3 analyses to detect trends",
      analysisCount := some analyses.length }
  else
    let firstAvg := firstAvgOf analyses
    let secondAvg := secondAvgOf analyses
    if secondAvg > firstAvg * 1.2 then
      { direction := some "WORSENING",
        message := "⚠️ High-severity issues increased " ++
          worseningPercentStr firstAvg secondAvg ++ "% in recent analyses",
        recommendation := some "Systematic review of documentation processes recommended",
        severity := some "HIGH",
        firstAvg := some (jsToFixed1 firstAvg),
        secondAvg := some (jsToFixed1 secondAvg) }
    else if secondAvg < firstAvg * 0.8 ∧ firstAvg > 0 then
      { direction := some "IMPROVING",
        message := "✅ High-severity issues decreased " ++
          toString (jsRound ((1 - secondAvg / firstAvg) * 100)) ++ "%",
        recommendation := some "Current processes appear effective - maintain practices",
        severity := some "LOW",
        firstAvg := some (jsToFixed1 firstAvg),
        secondAvg := some (jsToFixed1 secondAvg) }
    else
      { direction := some "STABLE",
        message := "Issue frequency stable",
        recommendation := some "Continue monitoring",
        severity := some "MEDIUM",
        firstAvg := some (jsToFixed1 firstAvg),
        secondAvg := some (jsToFixed1 secondAvg) }

/-- One novel-issue entry (lines 234-241). -/
structure NovelIssue where
  type : String
  severity : Option String := none
  description : Option String := none
  statute : Option String := none
  isNew : Bool := true
  message : String := ""
deriving Repr, DecidableEq

/-- The distinct previous issue types are only ever tested for membership; the
`Set` of lines 223-227 is modelled by the list of all earlier types. -/
def prevTypesOf (analyses : List AnalysisRecord) : List String :=
  (analyses.dropLast.flatMap extractFindings).map (fun d => d.type)

/-- Entry construction of lines 234-241. -/
def mkNovel (d : Defect) : NovelIssue :=
  { type := d.type, severity := d.severity, description := d.description,
    statute := d.statute, isNew := true,
    message := "⚠️ NEW ISSUE TYPE: \"" ++ d.type ++ "\" - First time detected in your analyses" }

/-- identifyNovelIssues (lines 215-242). -/
def identifyNovelIssues (analyses : List AnalysisRecord) : List NovelIssue :=
  match analyses.getLast? with
  | none => []
  | some latest =>
    ((extractFindings latest).filter
      (fun d => !(prevTypesOf analyses).contains d.type)).map mkNovel

/-- Result of calculateCompliance (lines 249-291); the four fields missing from
the empty-history return object of lines 250-257 are `Option`-valued. -/
structure ComplianceResult where
  totalAnalyses : Nat
  totalIssues : Option Nat := none
  averageIssuesPerDoc : ℚ
  complianceRate : ℚ
  criticalIssues : Option Nat := none
  highIssues : Option Nat := none
  mostCommonIssue : String
  mostCommonIssueCount : Option Nat := none
deriving Repr, DecidableEq

/-- The insertion-ordered `issueTypeCounts` dictionary of lines 262-272. -/
def addTypeCount (cs : List (String × Nat)) (t : String) : List (String × Nat) :=
  if cs.any (fun p => p.1 == t) then
    cs.map (fun p => if p.1 == t then (p.1, p.2 + 1) else p)
  else cs ++ [(t, 1)]

/-- Per-type occurrence counts over all extracted findings. -/
def issueTypeCountsOf (analyses : List AnalysisRecord) : List (String × Nat) :=
  ((analyses.flatMap extractFindings).map (fun d => d.type)).foldl addTypeCount []

/-- Nonstrict order of the comparator `(a, b) => b[1] - a[1]` on line 276. -/
def pairCountDesc (a b : String × Nat) : Prop := b.2 ≤ a.2

instance : DecidableRel pairCountDesc := fun a b => Nat.decLe b.2 a.2

instance : IsTotal (String × Nat) pairCountDesc := ⟨fun a b => Nat.le_total b.2 a.2⟩

instance : IsTrans (String × Nat) pairCountDesc := ⟨fun _ _ _ h h' => Nat.le_trans h' h⟩

/-- calculateCompliance (lines 249-291).  `avgIssues` is the `toFixed(1)`
string re-read numerically, i.e. the average rounded to one decimal; the final
`complianceScore.toFixed(1)`/`parseFloat` round trip is `round1` again. -/
def calculateCompliance (analyses : List AnalysisRecord) : ComplianceResult :=
  if analyses.isEmpty then
    { totalAnalyses := 0, averageIssuesPerDoc := 0, complianceRate := 100,
      mostCommonIssue := "None" }
  else
    let allFindings := analyses.flatMap extractFindings
    let totalIssues := allFindings.length
    let criticalCount := (allFindings.filter (fun d => d.severity == some "CRITICAL")).length
    let highCount := (allFindings.filter (fun d => d.severity == some "HIGH")).length
    let mostCommon := (List.insertionSort pairCountDesc (issueTypeCountsOf analyses)).head?
    let avgIssues : ℚ := round1 ((totalIssues : ℚ) / (analyses.length : ℚ))
    let complianceScore : ℚ := max 0 (100 - avgIssues * 5)
    { totalAnalyses := analyses.length,
      totalIssues := some totalIssues,
      averageIssuesPerDoc := avgIssues,
      complianceRate := round1 complianceScore,
      criticalIssues := some criticalCount,
      highIssues := some highCount,
      mostCommonIssue := ((mostCommon.map (fun p => p.1)).getD "None"),
      mostCommonIssueCount := some ((mostCommon.map (fun p => p.2)).getD 0) }

/-- One recommendation entry (lines 142-203). -/
structure Recommendation where
  issue : String
  frequency : Nat
  severity : Option String := none
  priority : Nat
  recommendation : String
  statute : String
deriving Repr, DecidableEq

/-- Trigger of the s.55D rule (lines 140-141): type truthy, and its lowercase
form contains both "55d" and "directions". -/
def rule55d (g : DefectGroup) : Bool :=
  !(g.type == "") && strIncludes (strLower g.type) "55d" && strIncludes (strLower g.type) "directions"

/-- Trigger of the s.49 rule (lines 158-159). -/
def rule49 (g : DefectGroup) : Bool :=
  !(g.type == "") && strIncludes (strLower g.type) "49" && strIncludes (strLower g.type) "reason to believe"

/-- Trigger of the s.464 rule (lines 176-177). -/
def rule464 (g : DefectGroup) : Bool :=
  !(g.type == "") && strIncludes (strLower g.type) "464" && strIncludes (strLower g.type) "caution"

/-- A group matches some specialized substring rule. -/
def isSpecialGroup (g : DefectGroup) : Bool := rule55d g || rule49 g || rule464 g

/-- The s.55D recommendation entry (lines 142-154). -/
def rec55d (g : DefectGroup) : Recommendation :=
  { issue := g.type, frequency := g.count, severity := some "HIGH", priority := 1,
    recommendation := "CREATE MANDATORY CHECKLIST: After " ++ toString g.count ++
      " occurrences, implement checklist requiring explicit documentation of:\n" ++
      "1. Oral directions provided to subject (s.55D(2))\n" ++
      "2. Written directions provided if subject illiterate\n" ++
      "3. Officer confirms subject understood directions\n" ++
      "4. Time directions given recorded\n" ++
      "5. Subject\x27s response to directions noted",
    statute := "Road Safety Act 1986 s.55D" }

/-- The s.49 recommendation entry (lines 160-172). -/
def rec49 (g : DefectGroup) : Recommendation :=
  { issue := g.type, frequency := g.count, severity := some "HIGH", priority := 1,
    recommendation := "TRAINING REQUIRED: Recurring failure to document subjective belief formation. " ++
      "Train officers to document:\n" ++
      "- Specific observations leading to belief\n" ++
      "- Which s.49(1)(a)-(h) indicator(s) observed\n" ++
      "- Time belief formed\n" ++
      "- Officer\x27s exact words forming belief",
    statute := "Road Safety Act 1986 s.49" }

/-- The s.464 recommendation entry (lines 178-190). -/
def rec464 (g : DefectGroup) : Recommendation :=
  { issue := g.type, frequency := g.count, severity := some "CRITICAL", priority := 1,
    recommendation := "CRITICAL PROCESS FAILURE: s.464 caution defects appearing " ++
      toString g.count ++ " times. " ++
      "Implement:\n" ++
      "- Pre-printed caution cards for officers\n" ++
      "- Mandatory verbatim recording of caution\n" ++
      "- Supervisor review before interview commencement\n" ++
      "- Body-worn camera verification of caution delivery",
    statute := "Crimes Act 1958 s.464" }

/-- The generic high-frequency entry (lines 195-203). -/
def genericRec (g : DefectGroup) : Recommendation :=
  { issue := g.type, frequency := g.count, severity := g.severity, priority := 2,
    recommendation := "Pattern detected: \"" ++ g.type ++ "\" has occurred " ++
      toString g.count ++ " times. " ++
      "Review procedures related to " ++ jsOrStr g.statute "this requirement" ++
      " to identify systemic causes.",
    statute := jsOrStr g.statute "Unknown" }

/-- The specialized pushes for one recurring group (lines 139-191; the three
rules are independent `if`s, so one group can push several entries). -/
def specialRecs (g : DefectGroup) : List Recommendation :=
  (if rule55d g then [rec55d g] else []) ++
  (if rule49 g then [rec49 g] else []) ++
  (if rule464 g then [rec464 g] else [])

/-- Loop body of lines 138-205 for one recurring group: push the specialized
entries, then the generic one when no entry accumulated so far (across all
groups) has this issue type and the group recurred at least 5 times. -/
def recsForGroup (acc : List Recommendation) (g : DefectGroup) : List Recommendation :=
  let base := acc ++ specialRecs g
  if (base.find? (fun r => r.issue == g.type)).isNone ∧ 5 ≤ g.count then
    base ++ [genericRec g]
  else base

/-- Nonstrict order of the comparator
`(a, b) => a.priority - b.priority || b.frequency - a.frequency` (line 207):
ascending priority, then descending frequency. -/
def recOrder (a b : Recommendation) : Prop :=
  a.priority < b.priority ∨ (a.priority = b.priority ∧ b.frequency ≤ a.frequency)

instance : DecidableRel recOrder := fun _ _ => by unfold recOrder; infer_instance

instance : IsTotal Recommendation recOrder := by
  constructor
  intro a b
  unfold recOrder
  omega

instance : IsTrans Recommendation recOrder := by
  constructor
  intro a b c hab hbc
  unfold recOrder at hab hbc ⊢
  omega

/-- generateRecommendations (lines 134-208). -/
def generateRecommendations (analyses : List AnalysisRecord) : List Recommendation :=
  List.insertionSort recOrder
    ((findRecurringDefects analyses).foldl recsForGroup [])

/-! ## Outcome learning (lines 451-541) -/

/-- Audit fields appended per outcome (lines 476-481). -/
structure OutcomeAudit where
  date : Option String := none
  outcome : Option String := none
  courtResponse : Option String := none
  effectiveArguments : Option (List String) := none
deriving Repr, DecidableEq

/-- OutcomeRecord: the user-entered outcome object consumed by
learnFromOutcome.  `defectsRaised` is `Option`-valued because the code guards
on its presence (line 453); `outcome` is the categorical string. -/
structure OutcomeRecord where
  date : Option String := none
  outcome : Option String := none
  defectsRaised : Option (List String) := none
  courtResponse : Option String := none
  effectiveArguments : Option (List String) := none
deriving Repr, DecidableEq

/-- DefectSuccessStats: the per-type record stored in the `successRates` map
(lines 456-462).  Note that no `successRate` field is ever stored: it is only
computed on copies by getSuccessRates. -/
structure DefectStats where
  type : String
  totalRaised : Nat := 0
  successful : Nat := 0
  unsuccessful : Nat := 0
  outcomes : List OutcomeAudit := []
deriving Repr, DecidableEq

/-- The successRates map, insertion-ordered. -/
abbrev SRState := List (String × DefectStats)

/-- The cleared state established by `reset()` (lines 538-541). -/
def resetState : SRState := []

/-- The successful-outcome vocabulary (lines 468-470). -/
def isSuccessOutcome (o : Option String) : Bool :=
  o == some "evidence excluded" || o == some "application successful" || o == some "case dismissed"

/-- Audit entry construction (lines 476-481). -/
def auditOf (o : OutcomeRecord) : OutcomeAudit :=
  { date := o.date, outcome := o.outcome, courtResponse := o.courtResponse,
    effectiveArguments := o.effectiveArguments }

/-- Fresh zeroed stats record (lines 456-462). -/
def emptyStats (t : String) : DefectStats :=
  { type := t, totalRaised := 0, successful := 0, unsuccessful := 0, outcomes := [] }

/-- The per-occurrence counter updates of lines 465-481. -/
def bumpStats (o : OutcomeRecord) (s : DefectStats) : DefectStats :=
  { s with
    totalRaised := s.totalRaised + 1,
    successful := if isSuccessOutcome o.outcome then s.successful + 1 else s.successful,
    unsuccessful := if isSuccessOutcome o.outcome then s.unsuccessful else s.unsuccessful + 1,
    outcomes := s.outcomes ++ [auditOf o] }

/-- Processing of one raised defect type (loop body of lines 454-482). -/
def recordDefectType (o : OutcomeRecord) (st : SRState) (t : String) : SRState :=
  if st.any (fun p => p.1 == t) then
    st.map (fun p => if p.1 == t then (p.1, bumpStats o p.2) else p)
  else
    st ++ [(t, bumpStats o (emptyStats t))]

/-- learnFromOutcome (lines 451-484) as a state transformer. -/
def learnFromOutcome (st : SRState) (o : OutcomeRecord) : SRState :=
  match o.defectsRaised with
  | none => st
  | some ts => ts.foldl (recordDefectType o) st

/-- Replay of a ledger of outcomes through learnFromOutcome. -/
def replayOutcomes (st : SRState) (os : List OutcomeRecord) : SRState :=
  os.foldl learnFromOutcome st

/-- JS value that is either a formatted string or a plain number: the
`successRate` computed by getSuccessRates is `(…).toFixed(1)` (a string) when
`totalRaised > 0` and the number `0` otherwise (lines 494-495). -/
inductive JsStrOrNum where
  | jstr (s : String)
  | jnum (q : ℚ)
deriving Repr, DecidableEq

/-- Numeric coercion applied to `successRate` by the sort comparator of
line 497 (string subtraction coerces through `parseFloat`-like ToNumber). -/
def jsStrOrNumVal (v : JsStrOrNum) : ℚ :=
  match v with
  | .jstr s => parseFixed1 s
  | .jnum q => q

/-- Entry returned by getSuccessRates: the stats spread plus the computed
`successRate` (lines 492-496). -/
structure RateEntry extends DefectStats where
  successRate : JsStrOrNum
deriving Repr, DecidableEq

/-- Entry construction of lines 492-496. -/
def mkRateEntry (s : DefectStats) : RateEntry :=
  { toDefectStats := s,
    successRate :=
      if 0 < s.totalRaised then
        .jstr (jsToFixed1 (((s.successful : ℚ) / (s.totalRaised : ℚ)) * 100))
      else .jnum 0 }

/-- Nonstrict order of the comparator `(a, b) => b.successRate - a.successRate`
(line 497). -/
def rateDesc (a b : RateEntry) : Prop :=
  jsStrOrNumVal b.successRate ≤ jsStrOrNumVal a.successRate

instance : DecidableRel rateDesc := fun a b => by unfold rateDesc; infer_instance

/-- getSuccessRates (lines 490-498). -/
def getSuccessRates (st : SRState) : List RateEntry :=
  List.insertionSort rateDesc (st.map (fun p => mkRateEntry p.2))

/-- Entry returned by prioritizeDefects (lines 505-533): the input defect
spread plus advisory fields. -/
structure PrioritizedDefect extends Defect where
  hasHistoricalData : Bool
  successRate : Option String := none
  timesRaised : Option Nat := none
  recommendation : String
deriving Repr, DecidableEq

/-- Property read `successInfo.successRate` performed on line 515.  The stats
records stored in the map only ever receive the fields
type/totalRaised/successful/unsuccessful/outcomes (lines 456-462, 465-481);
no `successRate` field is ever assigned on them, so this read yields JS
`undefined` on every reachable state. -/
def DefectStats.successRateField (_ : DefectStats) : Option ℚ := none

/-- JS comparison `v > 60` where `v` may be `undefined`: `undefined > 60`
evaluates via `NaN > 60` to `false`. -/
def jsGtSixty (v : Option ℚ) : Bool :=
  match v with
  | none => false
  | some q => decide (60 < q)

/-- The advisory attached when line 515 takes the true branch. -/
def strongAdvisory : String := "✅ High success rate in court - strong defect to raise"

/-- The advisory attached when line 515 takes the false branch. -/
def cautionAdvisory : String := "⚠️ Lower success rate - ensure strong evidence before raising"

/-- The advisory attached when no historical data qualifies (line 524). -/
def noDataAdvisory : String := "ℹ️ No historical outcome data for this defect type"

/-- The no-data entry of lines 521-525. -/
def noDataEntry (d : Defect) : PrioritizedDefect :=
  { toDefect := d, hasHistoricalData := false, recommendation := noDataAdvisory }

/-- Per-defect mapping of lines 506-525. -/
def prioritizeOne (st : SRState) (d : Defect) : PrioritizedDefect :=
  match (st.find? (fun p => p.1 == d.type)).map (fun p => p.2) with
  | some s =>
    if 3 ≤ s.totalRaised then
      { toDefect := d, hasHistoricalData := true,
        successRate := some (jsToFixed1 (((s.successful : ℚ) / (s.totalRaised : ℚ)) * 100)),
        timesRaised := some s.totalRaised,
        recommendation :=
          if jsGtSixty s.successRateField then strongAdvisory else cautionAdvisory }
    else noDataEntry d
  | none => noDataEntry d

/-- Nonstrict order of the comparator of lines 526-532: entries that both have
historical data compare by descending parsed successRate, every other pair
compares equal. -/
def prioOrder (a b : PrioritizedDefect) : Prop :=
  a.hasHistoricalData = true → b.hasHistoricalData = true →
    parseFixed1 (b.successRate.getD "") ≤ parseFixed1 (a.successRate.getD "")

instance : DecidableRel prioOrder := fun a b => by unfold prioOrder; infer_instance

/-- prioritizeDefects (lines 505-533). -/
def prioritizeDefects (st : SRState) (currentDefects : List Defect) : List PrioritizedDefect :=
  List.insertionSort prioOrder (currentDefects.map (prioritizeOne st))

/-! ## Untyped model of the extraction code path (for shape-robustness claims)

The typed definitions above cover records inside the well-shaped domain.  To
settle claims about malformed shapes the extraction expression of line 42 and
the `findings.forEach` key computation of lines 44-45 are also modelled over
raw JavaScript values, with property-access and method-call `TypeError`s made
explicit via `Except`. -/

/-- Raw JavaScript value. -/
inductive JsVal where
  | jsUndefined
  | jsNull
  | jsBool (b : Bool)
  | jsNum (n : Int)
  | jsStr (s : String)
  | jsArr (elems : List JsVal)
  | jsObj (fields : List (String × JsVal))
deriving Repr

/-- Is the value `undefined` or `null` (the values short-circuiting `?.`). -/
def isNullish (v : JsVal) : Bool :=
  match v with
  | .jsUndefined => true
  | .jsNull => true
  | _ => false

/-- JS truthiness (NaN is not modelled; no reachable number here is NaN). -/
def truthy (v : JsVal) : Bool :=
  match v with
  | .jsUndefined => false
  | .jsNull => false
  | .jsBool b => b
  | .jsNum n => n != 0
  | .jsStr s => s != ""
  | .jsArr _ => true
  | .jsObj _ => true

/-- JS property access `v.k`: throws on `undefined`/`null`, looks the field up
on objects, and yields `undefined` on (autoboxed) primitives and on arrays
(the property names read here are never array indices or `length`). -/
def getProp (v : JsVal) (k : String) : Except String JsVal :=
  match v with
  | .jsUndefined => .error ("cannot read properties of undefined (reading " ++ k ++ ")")
  | .jsNull => .error ("cannot read properties of null (reading " ++ k ++ ")")
  | .jsObj fs => .ok (((fs.find? (fun p => p.1 == k)).map (fun p => p.2)).getD .jsUndefined)
  | _ => .ok .jsUndefined

/-- JS template-literal stringification of the values reachable in the key
expression of line 45 (containers never carry this program's keys, so their
stringification is immaterial; arrays are rendered as the empty string that
`[].toString()` gives and objects by their standard tag). -/
def jsValToString (v : JsVal) : String :=
  match v with
  | .jsUndefined => "undefined"
  | .jsNull => "null"
  | .jsBool b => if b then "true" else "false"
  | .jsNum n => toString n
  | .jsStr s => s
  | .jsArr _ => ""
  | .jsObj _ => "[object Object]"

/-- One-level flattening of one `flatMap` callback result (non-array results
are kept as single elements). -/
def flattenOne (v : JsVal) : List JsVal :=
  match v with
  | .jsArr xs => xs
  | x => [x]

/-- The fallback `analysis.phases?.presetAnalysis?.flatMap(p => p.findings || [])`
of line 42: optional chaining short-circuits on nullish values, calling
`flatMap` on a non-array throws, and a nullish phase element throws inside the
callback when its `findings` property is read. -/
def jsPhaseFindings (analysis : JsVal) : Except String JsVal := do
  let phases ← getProp analysis "phases"
  if isNullish phases then pure .jsUndefined
  else do
    let pa ← getProp phases "presetAnalysis"
    if isNullish pa then pure .jsUndefined
    else
      match pa with
      | .jsArr ps => do
        let mapped ← ps.mapM (fun p => do
          let f ← getProp p "findings"
          pure (if truthy f then f else JsVal.jsArr []))
        pure (.jsArr (mapped.flatMap flattenOne))
      | _ => .error "presetAnalysis.flatMap is not a function"

/-- The whole extraction expression of line 42 over raw values. -/
def jsExtractFindings (analysis : JsVal) : Except String JsVal := do
  let f ← getProp analysis "findings"
  if truthy f then pure f
  else do
    let pf ← jsPhaseFindings analysis
    if truthy pf then pure pf else pure (.jsArr [])

/-- The grouping-key computation of line 45 over a raw defect value. -/
def jsDefectKey (d : JsVal) : Except String String := do
  let t ← getProp d "type"
  let s ← getProp d "statute"
  pure (jsValToString t ++ "|" ++ (if truthy s then jsValToString s else "unknown"))

/-- The `findings.forEach` iteration of lines 44-45 for one record: extraction
followed by the per-defect key computation; iterating a truthy non-array
throws the `forEach` TypeError. -/
def jsRecordKeys (analysis : JsVal) : Except String (List String) := do
  let fs ← jsExtractFindings analysis
  match fs with
  | .jsArr ds => ds.mapM jsDefectKey
  | _ => .error "findings.forEach is not a function"

/-- The outer `analyses.forEach` iteration of lines 41-63, reduced to the
sequence of grouping keys it visits (the part of findRecurringDefects that can
fail on data shape). -/
def jsCollectDefectKeys (analyses : List JsVal) : Except String (List String) := do
  let keyss ← analyses.mapM jsRecordKeys
  pure keyss.flatten

/-- A record in which both `findings` and `phases` are absent or nullish: the
shape the engine is guaranteed to degrade to an empty findings sequence. -/
def benignEmptyRecord (r : JsVal) : Bool :=
  match r with
  | .jsObj fs =>
    isNullish (((fs.find? (fun p => p.1 == "findings")).map (fun p => p.2)).getD .jsUndefined) &&
    isNullish (((fs.find? (fun p => p.1 == "phases")).map (fun p => p.2)).getD .jsUndefined)
  | _ => false

/-! ## Association-list views and counting helpers -/

/-- Lookup in an insertion-ordered dictionary. -/
def lookupAssoc {β : Type} (l : List (String × β)) (k : String) : Option β :=
  (l.find? (fun p => p.1 == k)).map (fun p => p.2)

/-- The common update shape shared by `defectCounts[key]`, `issueTypeCounts`
and the `successRates` map: bump the entry at `k`, inserting a zeroed
fresh one first when absent. -/
def assocUpsert {β : Type} (bump : β → β) (init : β) (l : List (String × β)) (k : String) :
    List (String × β) :=
  if l.any (fun p => p.1 == k) then
    l.map (fun p => if p.1 == k then (p.1, bump p.2) else p)
  else l ++ [(k, bump init)]

/-- Count stored for key `k` in the defect-counts dictionary. -/
def groupCountAt (gs : List (String × DefectGroup)) (k : String) : Nat :=
  ((lookupAssoc gs k).map (fun g => g.count)).getD 0

/-- totalRaised stored for type `t` (0 when absent). -/
def statTotal (st : SRState) (t : String) : Nat :=
  ((lookupAssoc st t).map (fun s => s.totalRaised)).getD 0

/-- successful stored for type `t` (0 when absent). -/
def statSucc (st : SRState) (t : String) : Nat :=
  ((lookupAssoc st t).map (fun s => s.successful)).getD 0

/-- unsuccessful stored for type `t` (0 when absent). -/
def statUnsucc (st : SRState) (t : String) : Nat :=
  ((lookupAssoc st t).map (fun s => s.unsuccessful)).getD 0

/-- Length of the audit list stored for type `t` (0 when absent). -/
def statOutLen (st : SRState) (t : String) : Nat :=
  ((lookupAssoc st t).map (fun s => s.outcomes.length)).getD 0

/-- Occurrences of type `t` in one outcome's raised-defect list. -/
def raisedIn (o : OutcomeRecord) (t : String) : Nat :=
  ((o.defectsRaised.getD []).filter (fun x => x == t)).length

/-- Total occurrences of type `t` raised across a ledger. -/
def raisedCount (os : List OutcomeRecord) (t : String) : Nat :=
  (os.map (fun o => raisedIn o t)).sum

/-- Occurrences of type `t` raised in outcomes classified successful. -/
def raisedSuccessCount (os : List OutcomeRecord) (t : String) : Nat :=
  (os.map (fun o => if isSuccessOutcome o.outcome then raisedIn o t else 0)).sum

/-- Occurrences of type `t` raised in outcomes classified unsuccessful. -/
def raisedFailCount (os : List OutcomeRecord) (t : String) : Nat :=
  (os.map (fun o => if isSuccessOutcome o.outcome then 0 else raisedIn o t)).sum

/-! ## Concrete inputs used by witnesses and counterexamples -/

/-- A defect sitting directly on the `findings` field. -/
def dDirect : Defect := { type := "direct-finding" }

/-- A defect nested under `phases.presetAnalysis`. -/
def dPhase : Defect := { type := "phase-finding" }

/-- A record carrying findings in BOTH supported places at once. -/
def recBoth : AnalysisRecord :=
  { id := 1, timestamp := "t1", findings := some [dDirect],
    phases := some { presetAnalysis := some [{ findings := some [dPhase] }] } }

/-- A record with no findings anywhere. -/
def recEmpty : AnalysisRecord := { id := 2, timestamp := "t2", findings := some [] }

/-- A HIGH-severity defect used to build trend histories. -/
def dHigh : Defect := { type := "high-defect", severity := some "HIGH" }

/-- Record with exactly one HIGH finding. -/
def recOneHigh : AnalysisRecord := { id := 3, timestamp := "t3", findings := some [dHigh] }

/-- Record with two HIGH findings. -/
def recTwoHigh : AnalysisRecord :=
  { id := 4, timestamp := "t4", findings := some [dHigh, dHigh] }

/-- Four-record history with high/critical counts [0,0,1,1]: firstAvg = 0 and
secondAvg = 1. -/
def trendCexHist : List AnalysisRecord := [recEmpty, recEmpty, recOneHigh, recOneHigh]

/-- Four-record history with high/critical counts [0,0,2,2]: firstAvg = 0 and
secondAvg = 2. -/
def trendZeroHist : List AnalysisRecord := [recEmpty, recEmpty, recTwoHigh, recTwoHigh]

/-- Defect recurring three times in the C4 witness history. -/
def dRecur : Defect := { type := "T-recurring", statute := some "S-recurring" }

/-- Defect occurring only twice in the C4 witness history. -/
def dTwice : Defect := { type := "T-twice", statute := some "S-twice" }

/-- History in which (T-recurring, S-recurring) occurs 3 times and
(T-twice, S-twice) occurs 2 times. -/
def recurHist : List AnalysisRecord :=
  [ { id := 10, timestamp := "u1", findings := some [dRecur, dTwice] },
    { id := 11, timestamp := "u2", findings := some [dRecur, dTwice] },
    { id := 12, timestamp := "u3", findings := some [dRecur] } ]

/-- An outcome marking type X successful ("evidence excluded"). -/
def outcomeEE : OutcomeRecord :=
  { date := some "2024-01-01", outcome := some "evidence excluded", defectsRaised := some ["X"] }

/-- An outcome marking type X unsuccessful ("case proceeded"). -/
def outcomeCP : OutcomeRecord :=
  { date := some "2024-02-01", outcome := some "case proceeded", defectsRaised := some ["X"] }

/-- The eight-outcome ledger of the C5 witness (7 successful, 1 not). -/
def ledger8 : List OutcomeRecord :=
  [outcomeEE, outcomeEE, outcomeEE, outcomeEE, outcomeEE, outcomeEE, outcomeEE, outcomeCP]

/-- State after replaying three successful outcomes for type X. -/
def stAfter3 : SRState := replayOutcomes resetState [outcomeEE, outcomeEE, outcomeEE]

/-- A current defect of type X fed to prioritizeDefects. -/
def defX : Defect := { type := "X" }

/-- A record with twenty findings (for the compliance floor witness). -/
def rec20 : AnalysisRecord :=
  { id := 20, timestamp := "v1",
    findings := some (List.replicate 20 { type := "bulk-defect", severity := some "LOW" }) }

/-- One-record history whose average issues per document is 20. -/
def hist20 : List AnalysisRecord := [rec20]

/-- Earlier record of the C7 witness history. -/
def recOld : AnalysisRecord :=
  { id := 30, timestamp := "w1", findings := some [{ type := "old-type" }] }

/-- Latest record of the C7 witness history: repeats a novel type twice and
also repeats the known type. -/
def recNew : AnalysisRecord :=
  { id := 31, timestamp := "w2",
    findings := some [{ type := "new-type" }, { type := "old-type" }, { type := "new-type" }] }

/-- Two-record history for the C7 witness. -/
def novelHist : List AnalysisRecord := [recOld, recNew]

/-- A defect whose type matches no specialized recommendation rule. -/
def dGeneric : Defect :=
  { type := "Generic pattern", severity := some "HIGH", statute := some "S8" }

/-- Five-record history making `dGeneric` recur five times. -/
def genericHist : List AnalysisRecord :=
  [ { id := 40, timestamp := "x1", findings := some [dGeneric] },
    { id := 41, timestamp := "x2", findings := some [dGeneric] },
    { id := 42, timestamp := "x3", findings := some [dGeneric] },
    { id := 43, timestamp := "x4", findings := some [dGeneric] },
    { id := 44, timestamp := "x5", findings := some [dGeneric] } ]

/-- The recurring group the generic rule fires on in `genericHist`. -/
def genericGroup : DefectGroup :=
  { type := "Generic pattern", statute := some "S8", severity := some "HIGH", count := 5,
    firstSeen := "x1", lastSeen := "x5",
    descriptions := [none, none, none, none, none], analysisIds := [40, 41, 42, 43, 44] }

/-- A raw record whose `findings` field is a truthy non-array value. -/
def badFindingsRecord : JsVal := .jsObj [("findings", .jsStr "bad")]

/-- A raw record with no `findings` or `phases` fields at all. -/
def emptyObjRecord : JsVal := .jsObj []

/-! ## General lemmas about the dictionary update shape -/

theorem bool_eq_false {b : Bool} (h : ¬ b = true) : b = false := by
  cases b
  · rfl
  · exact absurd rfl h

theorem addDefect_eq_upsert (gs : List (String × DefectGroup)) (a : AnalysisRecord) (d : Defect) :
    addDefect gs a d = assocUpsert (bumpGroup a d) (newGroup a d) gs (defectKey d) := rfl

theorem recordDefectType_eq_upsert (o : OutcomeRecord) (st : SRState) (t : String) :
    recordDefectType o st t = assocUpsert (bumpStats o) (emptyStats t) st t := rfl

theorem addTypeCount_eq_upsert (cs : List (String × Nat)) (t : String) :
    addTypeCount cs t = assocUpsert (fun n => n + 1) 0 cs t := rfl

theorem find?_cons_pos {α : Type} (p : α → Bool) (a : α) (l : List α) (h : p a = true) :
    List.find? p (a :: l) = some a := List.find?_cons_of_pos l h

theorem find?_cons_neg {α : Type} (p : α → Bool) (a : α) (l : List α) (h : ¬ p a = true) :
    List.find? p (a :: l) = List.find? p l := List.find?_cons_of_neg l h

theorem lookupAssoc_isSome {β : Type} (l : List (String × β)) (k : String) :
    (lookupAssoc l k).isSome = l.any (fun p => p.1 == k) := by
  rw [Bool.eq_iff_iff]
  unfold lookupAssoc
  rw [Option.isSome_iff_exists, List.any_eq_true]
  constructor
  · rintro ⟨v, hv⟩
    rw [Option.map_eq_some'] at hv
    obtain ⟨p, hp, _⟩ := hv
    have h3 := List.find?_some hp
    exact ⟨p, List.mem_of_find?_eq_some hp, h3⟩
  · rintro ⟨p, hp, hpk⟩
    have hs : (l.find? (fun p => p.1 == k)).isSome = true :=
      List.find?_isSome.mpr ⟨p, hp, hpk⟩
    rcases hfind : l.find? (fun p => p.1 == k) with _ | q
    · rw [hfind] at hs
      simp at hs
    · exact ⟨q.2, by rw [hfind]; rfl⟩

theorem lookupAssoc_map_upd {β : Type} (bump : β → β)
    (l : List (String × β)) (k k' : String) :
    lookupAssoc (l.map (fun p => if p.1 == k then (p.1, bump p.2) else p)) k' =
      (lookupAssoc l k').map (fun v => if k' = k then bump v else v) := by
  induction l with
  | nil => rfl
  | cons p l ih =>
    simp only [lookupAssoc] at ih ⊢
    rw [List.map_cons]
    by_cases hpk : p.1 = k
    · rw [if_pos (show (p.1 == k) = true by simpa [beq_iff_eq] using hpk)]
      by_cases hpk' : p.1 = k'
      · rw [find?_cons_pos (fun q => q.1 == k') (p.1, bump p.2) _
            (by simpa [beq_iff_eq] using hpk'),
          find?_cons_pos (fun q => q.1 == k') p _ (by simpa [beq_iff_eq] using hpk')]
        have hkk : k' = k := by rw [← hpk']; exact hpk
        simp [hkk]
      · rw [find?_cons_neg (fun q => q.1 == k') (p.1, bump p.2) _
            (by simpa [beq_iff_eq] using hpk'),
          find?_cons_neg (fun q => q.1 == k') p _ (by simpa [beq_iff_eq] using hpk')]
        exact ih
    · rw [if_neg (show ¬ (p.1 == k) = true by simpa [beq_iff_eq] using hpk)]
      by_cases hpk' : p.1 = k'
      · rw [find?_cons_pos (fun q => q.1 == k') p _ (by simpa [beq_iff_eq] using hpk'),
          find?_cons_pos (fun q => q.1 == k') p _ (by simpa [beq_iff_eq] using hpk')]
        have hkk : ¬ k' = k := by rw [← hpk']; exact hpk
        simp [hkk]
      · rw [find?_cons_neg (fun q => q.1 == k') p _ (by simpa [beq_iff_eq] using hpk'),
          find?_cons_neg (fun q => q.1 == k') p _ (by simpa [beq_iff_eq] using hpk')]
        exact ih

theorem lookupAssoc_append_single {β : Type} (l : List (String × β)) (k k' : String) (v : β) :
    lookupAssoc (l ++ [(k, v)]) k' =
      (lookupAssoc l k').or (if k' = k then some v else none) := by
  simp only [lookupAssoc]
  rw [List.find?_append]
  rcases hfind : l.find? (fun p => p.1 == k') with _ | p
  · by_cases hk : k' = k
    · subst hk
      rw [List.find?_cons_of_pos _ (by simp)]
      rw [hfind]
      simp
    · rw [List.find?_cons_of_neg _ (by simpa [beq_iff_eq] using fun h => hk h.symm)]
      rw [hfind]
      simp [hk]
  · simp [hfind]

theorem lookupAssoc_upsert {β : Type} (bump : β → β) (init : β)
    (l : List (String × β)) (k k' : String) :
    lookupAssoc (assocUpsert bump init l k) k' =
      if k' = k then some (bump ((lookupAssoc l k).getD init)) else lookupAssoc l k' := by
  unfold assocUpsert
  by_cases hmem : l.any (fun p => p.1 == k) = true
  · rw [if_pos hmem, lookupAssoc_map_upd]
    by_cases hk : k' = k
    · subst hk
      have hsome : (lookupAssoc l k').isSome = true := by
        rw [lookupAssoc_isSome]
        exact hmem
      rcases hv : lookupAssoc l k' with _ | v
      · rw [hv] at hsome
        simp at hsome
      · simp
    · rw [if_neg hk]
      rcases hv : lookupAssoc l k' with _ | v
      · simp
      · simp [hk]
  · rw [if_neg hmem, lookupAssoc_append_single]
    have hfalse : l.any (fun p => p.1 == k) = false := bool_eq_false hmem
    by_cases hk : k' = k
    · subst hk
      have hnone : lookupAssoc l k' = none := by
        have h2 := lookupAssoc_isSome l k'
        rw [hfalse] at h2
        rcases hv : lookupAssoc l k' with _ | v
        · rfl
        · rw [hv] at h2
          simp at h2
      rw [hnone]
      simp
    · rw [if_neg hk, if_neg hk]
      simp

theorem isSome_lookup_upsert {β : Type} (bump : β → β) (init : β)
    (l : List (String × β)) (k k' : String) :
    (lookupAssoc (assocUpsert bump init l k) k').isSome =
      ((k' == k) || (lookupAssoc l k').isSome) := by
  rw [lookupAssoc_upsert]
  by_cases hk : k' = k <;> simp [hk]

theorem keys_upsert {β : Type} (bump : β → β) (init : β)
    (l : List (String × β)) (k : String) :
    (assocUpsert bump init l k).map (fun p => p.1) =
      if l.any (fun p => p.1 == k) then l.map (fun p => p.1)
      else l.map (fun p => p.1) ++ [k] := by
  unfold assocUpsert
  by_cases hmem : l.any (fun p => p.1 == k) = true
  · rw [if_pos hmem, if_pos hmem, List.map_map]
    apply List.map_congr_left
    intro p _
    by_cases h : p.1 = k
    · simp [Function.comp, h]
    · simp [Function.comp, h]
  · rw [if_neg hmem, if_neg hmem]
    simp

theorem mem_upsert {β : Type} {P : String × β → Prop} (bump : β → β) (init : β)
    (l : List (String × β)) (k : String)
    (hl : ∀ p ∈ l, P p) (hnew : P (k, bump init))
    (hbump : ∀ p ∈ l, P (p.1, bump p.2)) :
    ∀ p ∈ assocUpsert bump init l k, P p := by
  unfold assocUpsert
  by_cases hmem : l.any (fun p => p.1 == k) = true
  · rw [if_pos hmem]
    intro p hp
    rw [List.mem_map] at hp
    obtain ⟨q, hq, hqe⟩ := hp
    by_cases h : q.1 = k
    · rw [if_pos (by simpa [beq_iff_eq] using h)] at hqe
      subst hqe
      exact hbump q hq
    · rw [if_neg (by simpa [beq_iff_eq] using h)] at hqe
      subst hqe
      exact hl q hq
  · rw [if_neg hmem]
    intro p hp
    rcases List.mem_append.mp hp with h | h
    · exact hl p h
    · rw [List.mem_singleton] at h
      subst h
      exact hnew

/-! ## C1: finding extraction does not merge the two shapes -/

/-- C1 (counterexample): on a record carrying findings both directly and under
`phases.presetAnalysis`, the extraction yields only the direct findings, not
the merge of both groups; consequently findRecurringDefects over three copies
of such a record never sees the phase-nested defect. -/
theorem c1_counterexample :
    extractFindings recBoth = [dDirect] ∧
    extractFindings recBoth ≠ [dDirect, dPhase] ∧
    (findRecurringDefects [recBoth, recBoth, recBoth]).map (fun g => g.type) =
      ["direct-finding"] := by
  refine ⟨rfl, by decide, by decide⟩

/-- C1 (amended): the extraction used by the Pattern Engine operations yields
the direct `findings` field whenever it is present — it equals the merge of
the two groups only when the phase-nested part is empty — and falls back to
the flattened phase findings exactly when the direct field is absent. -/
theorem c1_extraction_no_merge (a : AnalysisRecord) :
    (∀ l, a.findings = some l →
      extractFindings a = l ∧
      (extractFindings a = l ++ phaseFindings a ↔ phaseFindings a = [])) ∧
    (a.findings = none → extractFindings a = phaseFindings a) := by
  constructor
  · intro l hl
    have he : extractFindings a = l := by
      unfold extractFindings
      rw [hl]
    refine ⟨he, ?_⟩
    rw [he]
    constructor
    · intro h
      have hlen := congrArg List.length h
      rw [List.length_append] at hlen
      have : (phaseFindings a).length = 0 := by omega
      exact List.eq_nil_of_length_eq_zero this
    · intro h
      rw [h, List.append_nil]
  · intro hn
    unfold extractFindings
    rw [hn]

/-- C1 witness: the amended theorem evaluated on the two-shape record. -/
theorem c1_extraction_no_merge_witness :
    extractFindings recBoth = [dDirect] ∧
    (extractFindings recBoth = [dDirect] ++ phaseFindings recBoth ↔
      phaseFindings recBoth = []) :=
  (c1_extraction_no_merge recBoth).1 [dDirect] rfl

/-! ## C9: shape tolerance of the extraction -/

/-- Nullish values are falsy. -/
theorem truthy_of_nullish (v : JsVal) (h : isNullish v = true) : truthy v = false := by
  cases v <;> simp_all [isNullish, truthy]

theorem except_bind_ok {ε α β : Type} (a : α) (f : α → Except ε β) :
    (Except.ok a >>= f) = f a := rfl

theorem except_pure {ε α : Type} (a : α) : (pure a : Except ε α) = Except.ok a := rfl

/-- A record whose `findings` and `phases` fields are absent or nullish
contributes no keys and no error. -/
theorem jsRecordKeys_benign (r : JsVal) (h : benignEmptyRecord r = true) :
    jsRecordKeys r = .ok [] := by
  rcases r with _ | _ | b | n | s | es | fs <;> simp [benignEmptyRecord] at h
  obtain ⟨h1, h2⟩ := h
  have hv := truthy_of_nullish _ h1
  have hw := truthy_of_nullish _ h2
  have hu : truthy JsVal.jsUndefined = false := rfl
  simp [jsRecordKeys, jsExtractFindings, jsPhaseFindings, getProp, except_bind_ok,
    except_pure, hv, hw, h1, h2, hu]
  rfl

/-- C9 (amended): over records whose `findings`/`phases` fields are absent or
nullish, the recurring-defect iteration returns normally with no keys (the
fail-soft guarantee), while a truthy non-array `findings` value instead raises
a TypeError (see the counterexample). -/
theorem c9_shape_tolerance (recs : List JsVal)
    (h : ∀ r ∈ recs, benignEmptyRecord r = true) :
    jsCollectDefectKeys recs = .ok [] := by
  unfold jsCollectDefectKeys
  have hmap : recs.mapM jsRecordKeys = .ok (recs.map (fun _ => ([] : List String))) := by
    induction recs with
    | nil => rfl
    | cons r rs ih =>
      have hr : jsRecordKeys r = .ok [] := jsRecordKeys_benign r (h r (List.mem_cons_self r rs))
      have hrs := ih (fun q hq => h q (List.mem_cons_of_mem r hq))
      rw [List.mapM_cons, hr, hrs]
      rfl
  rw [hmap]
  have hflat : (recs.map (fun _ => ([] : List String))).flatten = [] := by
    induction recs with
    | nil => rfl
    | cons r rs ih => simp [ih]
  simp [hflat]

/-- C9 (counterexample): a record whose `findings` field is a truthy non-array
value makes the recurring-defect iteration raise a TypeError instead of being
treated as an empty findings sequence. -/
theorem c9_counterexample :
    jsCollectDefectKeys [badFindingsRecord] = .error "findings.forEach is not a function" ∧
    truthy (.jsStr "bad") = true := ⟨rfl, rfl⟩

/-- C9 witness: the amended theorem evaluated on a field-free object record. -/
theorem c9_shape_tolerance_witness :
    (∀ r ∈ [emptyObjRecord], benignEmptyRecord r = true) ∧
    jsCollectDefectKeys [emptyObjRecord] = .ok [] :=
  ⟨by decide, c9_shape_tolerance [emptyObjRecord] (by decide)⟩

/-! ## C4: recurrence threshold and ordering of findRecurringDefects -/

theorem lookupAssoc_mem {β : Type} (l : List (String × β)) (k : String) (v : β)
    (h : lookupAssoc l k = some v) : (k, v) ∈ l := by
  unfold lookupAssoc at h
  rw [Option.map_eq_some'] at h
  obtain ⟨p, hfind, hv⟩ := h
  have hk := List.find?_some hfind
  rw [beq_iff_eq] at hk
  have hp : p = (k, v) := by
    cases p
    simp_all
  rw [← hp]
  exact List.mem_of_find?_eq_some hfind

theorem lookupAssoc_of_mem_nodup {β : Type} (l : List (String × β))
    (hnd : (l.map (fun p => p.1)).Nodup) (k : String) (v : β) (h : (k, v) ∈ l) :
    lookupAssoc l k = some v := by
  induction l with
  | nil => cases h
  | cons p ps ih =>
    rw [List.map_cons, List.nodup_cons] at hnd
    rcases List.mem_cons.mp h with he | hm
    · unfold lookupAssoc
      rw [find?_cons_pos (fun q => q.1 == k) p ps (by rw [← he]; simp), ← he]
      rfl
    · have hne : ¬ p.1 = k := by
        intro he
        exact hnd.1 (he ▸ (List.mem_map.mpr ⟨(k, v), hm, rfl⟩))
      unfold lookupAssoc
      rw [find?_cons_neg (fun q => q.1 == k) p ps (by simpa [beq_iff_eq] using hne)]
      exact ih hnd.2 hm

theorem bumpGroup_count (a : AnalysisRecord) (d : Defect) (g : DefectGroup) :
    (bumpGroup a d g).count = g.count + 1 := rfl

theorem groupCountAt_addDefect (gs : List (String × DefectGroup))
    (a : AnalysisRecord) (d : Defect) (k : String) :
    groupCountAt (addDefect gs a d) k =
      groupCountAt gs k + (if defectKey d == k then 1 else 0) := by
  rw [addDefect_eq_upsert]
  unfold groupCountAt
  rw [lookupAssoc_upsert]
  by_cases hk : k = defectKey d
  · rw [if_pos hk]
    have hbeq : (defectKey d == k) = true := by simpa [beq_iff_eq] using hk.symm
    rw [hbeq]
    rcases hl : lookupAssoc gs k with _ | g
    · rw [hk] at hl
      rw [hl]
      rfl
    · rw [hk] at hl
      rw [hl]
      simp [bumpGroup_count]
  · rw [if_neg hk]
    have hbeq : (defectKey d == k) = false := by
      simpa [beq_iff_eq] using fun he => hk he.symm
    rw [hbeq]
    simp

theorem groupCountAt_fold (pairs : List (AnalysisRecord × Defect)) :
    ∀ (gs : List (String × DefectGroup)) (k : String),
      groupCountAt (pairs.foldl (fun gs p => addDefect gs p.1 p.2) gs) k =
        groupCountAt gs k + (pairs.filter (fun p => defectKey p.2 == k)).length := by
  induction pairs with
  | nil => simp
  | cons p ps ih =>
    intro gs k
    rw [List.foldl_cons, ih, groupCountAt_addDefect]
    by_cases h : (defectKey p.2 == k) = true
    · simp [List.filter_cons, h]
      omega
    · simp [List.filter_cons, h, bool_eq_false h]

theorem groupKey_bumpGroup (a : AnalysisRecord) (d : Defect) (g : DefectGroup) :
    groupKey (bumpGroup a d g) = groupKey g := rfl

theorem groupKey_fold (pairs : List (AnalysisRecord × Defect)) :
    ∀ (gs : List (String × DefectGroup)), (∀ p ∈ gs, groupKey p.2 = p.1) →
      ∀ p ∈ pairs.foldl (fun gs p => addDefect gs p.1 p.2) gs, groupKey p.2 = p.1 := by
  induction pairs with
  | nil => exact fun gs h => h
  | cons q ps ih =>
    intro gs hgs
    rw [List.foldl_cons]
    apply ih
    rw [addDefect_eq_upsert]
    apply mem_upsert
    · exact hgs
    · show groupKey (bumpGroup q.1 q.2 (newGroup q.1 q.2)) = defectKey q.2
      rfl
    · intro p hp
      show groupKey (bumpGroup q.1 q.2 p.2) = p.1
      rw [groupKey_bumpGroup]
      exact hgs p hp

theorem nodup_keys_fold (pairs : List (AnalysisRecord × Defect)) :
    ∀ (gs : List (String × DefectGroup)), ((gs.map (fun p => p.1)).Nodup) →
      (((pairs.foldl (fun gs p => addDefect gs p.1 p.2) gs).map (fun p => p.1)).Nodup) := by
  induction pairs with
  | nil => exact fun gs h => h
  | cons q ps ih =>
    intro gs hgs
    rw [List.foldl_cons]
    apply ih
    rw [addDefect_eq_upsert, keys_upsert]
    by_cases hmem : gs.any (fun p => p.1 == defectKey q.2) = true
    · rw [if_pos hmem]
      exact hgs
    · rw [if_neg hmem]
      rw [List.nodup_append]
      refine ⟨hgs, List.nodup_singleton _, ?_⟩
      intro x hx hx2
      rw [List.mem_singleton] at hx2
      subst hx2
      rw [List.mem_map] at hx
      obtain ⟨p, hp, hpk⟩ := hx
      exact hmem (List.any_eq_true.mpr ⟨p, hp, by simpa [beq_iff_eq] using hpk⟩)

theorem pairs_filter_eq (analyses : List AnalysisRecord) (k : String) :
    ((analysisDefectPairs analyses).filter (fun p => defectKey p.2 == k)).length =
      keyOccurrences analyses k := by
  unfold analysisDefectPairs keyOccurrences
  induction analyses with
  | nil => rfl
  | cons a as ih =>
    rw [List.flatMap_cons, List.flatMap_cons, List.filter_append, List.filter_append,
      List.length_append, List.length_append, ih]
    congr 1
    rw [List.filter_map]
    rw [List.length_map]
    rfl

theorem groupCountAt_counts (analyses : List AnalysisRecord) (k : String) :
    groupCountAt (defectCountsOf analyses) k = keyOccurrences analyses k := by
  unfold defectCountsOf
  rw [groupCountAt_fold, pairs_filter_eq]
  simp [groupCountAt, lookupAssoc]

/-- C4: a (type, statute-or-unknown) key occurring exactly twice is omitted
from findRecurringDefects; one occurring exactly three times yields a group
with count 3; and the result is sorted with counts descending. -/
theorem c4_recurrence_threshold (analyses : List AnalysisRecord) (k : String) :
    (keyOccurrences analyses k = 2 → ∀ g ∈ findRecurringDefects analyses, groupKey g ≠ k) ∧
    (keyOccurrences analyses k = 3 →
      ∃ g ∈ findRecurringDefects analyses, groupKey g = k ∧ g.count = 3) ∧
    (findRecurringDefects analyses).Sorted countDesc := by
  have hnd : ((defectCountsOf analyses).map (fun p => p.1)).Nodup :=
    nodup_keys_fold _ [] (by simp)
  have hkeyinv : ∀ p ∈ defectCountsOf analyses, groupKey p.2 = p.1 :=
    groupKey_fold _ [] (by simp)
  refine ⟨?_, ?_, List.sorted_insertionSort countDesc _⟩
  · intro h2 g hg hkey
    unfold findRecurringDefects at hg
    rw [List.mem_insertionSort, List.mem_filter] at hg
    obtain ⟨hgmem, hgcnt⟩ := hg
    rw [List.mem_map] at hgmem
    obtain ⟨p, hpmem, hpeq⟩ := hgmem
    have hpk : p.1 = k := by
      rw [← hkeyinv p hpmem, hpeq, hkey]
    have hpair : (k, g) ∈ defectCountsOf analyses := by
      have : p = (k, g) := by
        cases p
        simp_all
      rw [← this]
      exact hpmem
    have hlook := lookupAssoc_of_mem_nodup _ hnd _ _ hpair
    have hcnt : groupCountAt (defectCountsOf analyses) k = g.count := by
      unfold groupCountAt
      rw [hlook]
      rfl
    rw [groupCountAt_counts, h2] at hcnt
    simp at hgcnt
    omega
  · intro h3
    have hsome : ∃ g, lookupAssoc (defectCountsOf analyses) k = some g := by
      rcases hl : lookupAssoc (defectCountsOf analyses) k with _ | g
      · exfalso
        have hz : groupCountAt (defectCountsOf analyses) k = 0 := by
          unfold groupCountAt
          rw [hl]
          rfl
        rw [groupCountAt_counts, h3] at hz
        omega
      · exact ⟨g, rfl⟩
    obtain ⟨g, hg⟩ := hsome
    have hcnt : g.count = 3 := by
      have hc : groupCountAt (defectCountsOf analyses) k = g.count := by
        unfold groupCountAt
        rw [hg]
        rfl
      rw [groupCountAt_counts, h3] at hc
      omega
    have hmem : (k, g) ∈ defectCountsOf analyses := lookupAssoc_mem _ _ _ hg
    have hkeyg : groupKey g = k := hkeyinv (k, g) hmem
    refine ⟨g, ?_, hkeyg, hcnt⟩
    unfold findRecurringDefects
    rw [List.mem_insertionSort, List.mem_filter]
    refine ⟨List.mem_map.mpr ⟨(k, g), hmem, rfl⟩, by simp [hcnt]⟩

/-- C4 witness: the theorem evaluated on a history where one key occurs three
times and another twice. -/
theorem c4_recurrence_threshold_witness :
    keyOccurrences recurHist "T-twice|S-twice" = 2 ∧
    keyOccurrences recurHist "T-recurring|S-recurring" = 3 ∧
    (∀ g ∈ findRecurringDefects recurHist, groupKey g ≠ "T-twice|S-twice") ∧
    (∃ g ∈ findRecurringDefects recurHist,
      groupKey g = "T-recurring|S-recurring" ∧ g.count = 3) ∧
    (findRecurringDefects recurHist).Sorted countDesc :=
  ⟨by decide, by decide,
    (c4_recurrence_threshold recurHist "T-twice|S-twice").1 (by decide),
    (c4_recurrence_threshold recurHist "T-recurring|S-recurring").2.1 (by decide),
    (c4_recurrence_threshold recurHist "T-recurring|S-recurring").2.2⟩

/-! ## Outcome-learning bookkeeping lemmas -/

theorem bumpStats_total (o : OutcomeRecord) (s : DefectStats) :
    (bumpStats o s).totalRaised = s.totalRaised + 1 := rfl

theorem bumpStats_succ (o : OutcomeRecord) (s : DefectStats) :
    (bumpStats o s).successful =
      if isSuccessOutcome o.outcome then s.successful + 1 else s.successful := rfl

theorem bumpStats_unsucc (o : OutcomeRecord) (s : DefectStats) :
    (bumpStats o s).unsuccessful =
      if isSuccessOutcome o.outcome then s.unsuccessful else s.unsuccessful + 1 := rfl

theorem bumpStats_outLen (o : OutcomeRecord) (s : DefectStats) :
    (bumpStats o s).outcomes.length = s.outcomes.length + 1 := by
  show (s.outcomes ++ [auditOf o]).length = s.outcomes.length + 1
  simp

theorem statTotal_record (o : OutcomeRecord) (st : SRState) (t k : String) :
    statTotal (recordDefectType o st t) k = statTotal st k + (if t = k then 1 else 0) := by
  rw [recordDefectType_eq_upsert]
  unfold statTotal
  rw [lookupAssoc_upsert]
  by_cases hk : k = t
  · rw [if_pos hk, if_pos hk.symm, hk]
    rcases hl : lookupAssoc st t with _ | s
    · simp [bumpStats_total, emptyStats]
    · simp [bumpStats_total]
  · rw [if_neg hk, if_neg (fun he => hk he.symm)]
    simp

theorem statSucc_record (o : OutcomeRecord) (st : SRState) (t k : String) :
    statSucc (recordDefectType o st t) k =
      statSucc st k +
        (if t = k then (if isSuccessOutcome o.outcome then 1 else 0) else 0) := by
  rw [recordDefectType_eq_upsert]
  unfold statSucc
  rw [lookupAssoc_upsert]
  by_cases hk : k = t
  · rw [if_pos hk, if_pos hk.symm, hk]
    rcases hl : lookupAssoc st t with _ | s <;>
      by_cases ho : isSuccessOutcome o.outcome = true <;>
        simp [bumpStats_succ, emptyStats, ho, bool_eq_false]
  · rw [if_neg hk, if_neg (fun he => hk he.symm)]
    simp

theorem statUnsucc_record (o : OutcomeRecord) (st : SRState) (t k : String) :
    statUnsucc (recordDefectType o st t) k =
      statUnsucc st k +
        (if t = k then (if isSuccessOutcome o.outcome then 0 else 1) else 0) := by
  rw [recordDefectType_eq_upsert]
  unfold statUnsucc
  rw [lookupAssoc_upsert]
  by_cases hk : k = t
  · rw [if_pos hk, if_pos hk.symm, hk]
    rcases hl : lookupAssoc st t with _ | s <;>
      by_cases ho : isSuccessOutcome o.outcome = true <;>
        simp [bumpStats_unsucc, emptyStats, ho, bool_eq_false]
  · rw [if_neg hk, if_neg (fun he => hk he.symm)]
    simp

theorem statOutLen_record (o : OutcomeRecord) (st : SRState) (t k : String) :
    statOutLen (recordDefectType o st t) k =
      statOutLen st k + (if t = k then 1 else 0) := by
  rw [recordDefectType_eq_upsert]
  unfold statOutLen
  rw [lookupAssoc_upsert]
  by_cases hk : k = t
  · rw [if_pos hk, if_pos hk.symm, hk]
    rcases hl : lookupAssoc st t with _ | s
    · simp [bumpStats_outLen, emptyStats]
    · simp [bumpStats_outLen]
  · rw [if_neg hk, if_neg (fun he => hk he.symm)]
    simp

theorem statTotal_foldTypes (o : OutcomeRecord) (ts : List String) :
    ∀ (st : SRState) (k : String),
      statTotal (ts.foldl (recordDefectType o) st) k =
        statTotal st k + (ts.filter (fun x => x == k)).length := by
  induction ts with
  | nil => simp
  | cons t ts ih =>
    intro st k
    rw [List.foldl_cons, ih, statTotal_record]
    by_cases h : t = k
    · simp [List.filter_cons, h]
      omega
    · simp [List.filter_cons, h]

theorem statSucc_foldTypes (o : OutcomeRecord) (ts : List String) :
    ∀ (st : SRState) (k : String),
      statSucc (ts.foldl (recordDefectType o) st) k =
        statSucc st k +
          (if isSuccessOutcome o.outcome then (ts.filter (fun x => x == k)).length else 0) := by
  induction ts with
  | nil => simp
  | cons t ts ih =>
    intro st k
    rw [List.foldl_cons, ih, statSucc_record]
    by_cases h : t = k <;> by_cases ho : isSuccessOutcome o.outcome = true <;>
      simp [List.filter_cons, h, ho, bool_eq_false] <;> omega

theorem statUnsucc_foldTypes (o : OutcomeRecord) (ts : List String) :
    ∀ (st : SRState) (k : String),
      statUnsucc (ts.foldl (recordDefectType o) st) k =
        statUnsucc st k +
          (if isSuccessOutcome o.outcome then 0 else (ts.filter (fun x => x == k)).length) := by
  induction ts with
  | nil => simp
  | cons t ts ih =>
    intro st k
    rw [List.foldl_cons, ih, statUnsucc_record]
    by_cases h : t = k <;> by_cases ho : isSuccessOutcome o.outcome = true <;>
      simp [List.filter_cons, h, ho, bool_eq_false] <;> omega

theorem statOutLen_foldTypes (o : OutcomeRecord) (ts : List String) :
    ∀ (st : SRState) (k : String),
      statOutLen (ts.foldl (recordDefectType o) st) k =
        statOutLen st k + (ts.filter (fun x => x == k)).length := by
  induction ts with
  | nil => simp
  | cons t ts ih =>
    intro st k
    rw [List.foldl_cons, ih, statOutLen_record]
    by_cases h : t = k
    · simp [List.filter_cons, h]
      omega
    · simp [List.filter_cons, h]

theorem raisedIn_filter (o : OutcomeRecord) (k : String) :
    raisedIn o k = ((o.defectsRaised.getD []).filter (fun x => x == k)).length := rfl

theorem statTotal_learn (st : SRState) (o : OutcomeRecord) (k : String) :
    statTotal (learnFromOutcome st o) k = statTotal st k + raisedIn o k := by
  unfold learnFromOutcome
  rcases hd : o.defectsRaised with _ | ts
  · simp [raisedIn, hd]
  · rw [statTotal_foldTypes, raisedIn_filter, hd]
    rfl

theorem statSucc_learn (st : SRState) (o : OutcomeRecord) (k : String) :
    statSucc (learnFromOutcome st o) k =
      statSucc st k + (if isSuccessOutcome o.outcome then raisedIn o k else 0) := by
  unfold learnFromOutcome
  rcases hd : o.defectsRaised with _ | ts
  · simp [raisedIn, hd]
  · rw [statSucc_foldTypes, raisedIn_filter, hd]
    rfl

theorem statUnsucc_learn (st : SRState) (o : OutcomeRecord) (k : String) :
    statUnsucc (learnFromOutcome st o) k =
      statUnsucc st k + (if isSuccessOutcome o.outcome then 0 else raisedIn o k) := by
  unfold learnFromOutcome
  rcases hd : o.defectsRaised with _ | ts
  · simp [raisedIn, hd]
  · rw [statUnsucc_foldTypes, raisedIn_filter, hd]
    rfl

theorem statOutLen_learn (st : SRState) (o : OutcomeRecord) (k : String) :
    statOutLen (learnFromOutcome st o) k = statOutLen st k + raisedIn o k := by
  unfold learnFromOutcome
  rcases hd : o.defectsRaised with _ | ts
  · simp [raisedIn, hd]
  · rw [statOutLen_foldTypes, raisedIn_filter, hd]
    rfl

theorem statTotal_replay (os : List OutcomeRecord) :
    ∀ (st : SRState) (k : String),
      statTotal (replayOutcomes st os) k = statTotal st k + raisedCount os k := by
  induction os with
  | nil => simp [replayOutcomes, raisedCount]
  | cons o os ih =>
    intro st k
    show statTotal (replayOutcomes (learnFromOutcome st o) os) k = _
    rw [ih, statTotal_learn]
    simp [raisedCount]
    omega

theorem statSucc_replay (os : List OutcomeRecord) :
    ∀ (st : SRState) (k : String),
      statSucc (replayOutcomes st os) k = statSucc st k + raisedSuccessCount os k := by
  induction os with
  | nil => simp [replayOutcomes, raisedSuccessCount]
  | cons o os ih =>
    intro st k
    show statSucc (replayOutcomes (learnFromOutcome st o) os) k = _
    rw [ih, statSucc_learn]
    simp [raisedSuccessCount]
    omega

theorem statUnsucc_replay (os : List OutcomeRecord) :
    ∀ (st : SRState) (k : String),
      statUnsucc (replayOutcomes st os) k = statUnsucc st k + raisedFailCount os k := by
  induction os with
  | nil => simp [replayOutcomes, raisedFailCount]
  | cons o os ih =>
    intro st k
    show statUnsucc (replayOutcomes (learnFromOutcome st o) os) k = _
    rw [ih, statUnsucc_learn]
    simp [raisedFailCount]
    omega

theorem statOutLen_replay (os : List OutcomeRecord) :
    ∀ (st : SRState) (k : String),
      statOutLen (replayOutcomes st os) k = statOutLen st k + raisedCount os k := by
  induction os with
  | nil => simp [replayOutcomes, raisedCount]
  | cons o os ih =>
    intro st k
    show statOutLen (replayOutcomes (learnFromOutcome st o) os) k = _
    rw [ih, statOutLen_learn]
    simp [raisedCount]
    omega

theorem raised_split (os : List OutcomeRecord) (k : String) :
    raisedCount os k = raisedSuccessCount os k + raisedFailCount os k := by
  induction os with
  | nil => rfl
  | cons o os ih =>
    by_cases ho : isSuccessOutcome o.outcome = true <;>
      simp [raisedCount, raisedSuccessCount, raisedFailCount, ho, bool_eq_false] at ih ⊢ <;>
        omega

theorem stats_pos_foldTypes (o : OutcomeRecord) (ts : List String) :
    ∀ (st : SRState), (∀ p ∈ st, 1 ≤ p.2.totalRaised) →
      ∀ p ∈ ts.foldl (recordDefectType o) st, 1 ≤ p.2.totalRaised := by
  induction ts with
  | nil => exact fun st h => h
  | cons t ts ih =>
    intro st hst
    rw [List.foldl_cons]
    apply ih
    rw [recordDefectType_eq_upsert]
    apply mem_upsert
    · exact hst
    · show 1 ≤ (bumpStats o (emptyStats t)).totalRaised
      rw [bumpStats_total]
      omega
    · intro p hp
      show 1 ≤ (bumpStats o p.2).totalRaised
      rw [bumpStats_total]
      omega

theorem stats_pos_replay (os : List OutcomeRecord) :
    ∀ (st : SRState), (∀ p ∈ st, 1 ≤ p.2.totalRaised) →
      ∀ p ∈ replayOutcomes st os, 1 ≤ p.2.totalRaised := by
  induction os with
  | nil => exact fun st h => h
  | cons o os ih =>
    intro st hst
    show ∀ p ∈ replayOutcomes (learnFromOutcome st o) os, 1 ≤ p.2.totalRaised
    apply ih
    unfold learnFromOutcome
    rcases o.defectsRaised with _ | ts
    · exact hst
    · exact stats_pos_foldTypes o ts st hst

theorem nodup_keys_foldTypes (o : OutcomeRecord) (ts : List String) :
    ∀ (st : SRState), ((st.map (fun p => p.1)).Nodup) →
      (((ts.foldl (recordDefectType o) st).map (fun p => p.1)).Nodup) := by
  induction ts with
  | nil => exact fun st h => h
  | cons t ts ih =>
    intro st hst
    rw [List.foldl_cons]
    apply ih
    rw [recordDefectType_eq_upsert, keys_upsert]
    by_cases hmem : st.any (fun p => p.1 == t) = true
    · rw [if_pos hmem]
      exact hst
    · rw [if_neg hmem]
      rw [List.nodup_append]
      refine ⟨hst, List.nodup_singleton _, ?_⟩
      intro x hx hx2
      rw [List.mem_singleton] at hx2
      subst hx2
      rw [List.mem_map] at hx
      obtain ⟨p, hp, hpk⟩ := hx
      exact hmem (List.any_eq_true.mpr ⟨p, hp, by simpa [beq_iff_eq] using hpk⟩)

theorem nodup_keys_replay (os : List OutcomeRecord) :
    ∀ (st : SRState), ((st.map (fun p => p.1)).Nodup) →
      (((replayOutcomes st os).map (fun p => p.1)).Nodup) := by
  induction os with
  | nil => exact fun st h => h
  | cons o os ih =>
    intro st hst
    show ((replayOutcomes (learnFromOutcome st o) os).map (fun p => p.1)).Nodup
    apply ih
    unfold learnFromOutcome
    rcases o.defectsRaised with _ | ts
    · exact hst
    · exact nodup_keys_foldTypes o ts st hst

theorem mem_key_foldTypes (o : OutcomeRecord) (ts : List String) (Q : String → Prop)
    (hts : ∀ t ∈ ts, Q t) :
    ∀ (st : SRState), (∀ p ∈ st, Q p.1) →
      ∀ p ∈ ts.foldl (recordDefectType o) st, Q p.1 := by
  induction ts with
  | nil => exact fun st h => h
  | cons t ts ih =>
    intro st hst
    rw [List.foldl_cons]
    apply ih (fun x hx => hts x (List.mem_cons_of_mem t hx))
    rw [recordDefectType_eq_upsert]
    apply mem_upsert
    · exact hst
    · exact hts t (List.mem_cons_self t ts)
    · intro p hp
      exact hst p hp

theorem mem_key_replay (os : List OutcomeRecord) (Q : String → Prop)
    (hos : ∀ o ∈ os, ∀ t ∈ o.defectsRaised.getD [], Q t) :
    ∀ (st : SRState), (∀ p ∈ st, Q p.1) →
      ∀ p ∈ replayOutcomes st os, Q p.1 := by
  induction os with
  | nil => exact fun st h => h
  | cons o os ih =>
    intro st hst
    show ∀ p ∈ replayOutcomes (learnFromOutcome st o) os, Q p.1
    apply ih (fun q hq => hos q (List.mem_cons_of_mem o hq))
    unfold learnFromOutcome
    rcases hd : o.defectsRaised with _ | ts
    · exact hst
    · apply mem_key_foldTypes o ts Q ?_ st hst
      intro t ht
      have := hos o (List.mem_cons_self o os)
      rw [hd] at this
      exact this t ht

/-! ## C10: invariants of the success-rate map -/

/-- C10: after any replay from the reset state, every entry of the map has
successful + unsuccessful = totalRaised, outcomes.length = totalRaised, and
totalRaised at least 1. -/
theorem c10_stats_invariant (os : List OutcomeRecord) (p : String × DefectStats)
    (hp : p ∈ replayOutcomes resetState os) :
    p.2.successful + p.2.unsuccessful = p.2.totalRaised ∧
    p.2.outcomes.length = p.2.totalRaised ∧
    1 ≤ p.2.totalRaised := by
  have hnd := nodup_keys_replay os resetState (by simp [resetState])
  have hlook : lookupAssoc (replayOutcomes resetState os) p.1 = some p.2 := by
    apply lookupAssoc_of_mem_nodup _ hnd
    cases p
    exact hp
  have h1 : statTotal (replayOutcomes resetState os) p.1 = p.2.totalRaised := by
    unfold statTotal
    rw [hlook]
    rfl
  have h2 : statSucc (replayOutcomes resetState os) p.1 = p.2.successful := by
    unfold statSucc
    rw [hlook]
    rfl
  have h3 : statUnsucc (replayOutcomes resetState os) p.1 = p.2.unsuccessful := by
    unfold statUnsucc
    rw [hlook]
    rfl
  have h4 : statOutLen (replayOutcomes resetState os) p.1 = p.2.outcomes.length := by
    unfold statOutLen
    rw [hlook]
    rfl
  have ht := statTotal_replay os resetState p.1
  have hs := statSucc_replay os resetState p.1
  have hu := statUnsucc_replay os resetState p.1
  have ho := statOutLen_replay os resetState p.1
  have hz1 : statTotal resetState p.1 = 0 := rfl
  have hz2 : statSucc resetState p.1 = 0 := rfl
  have hz3 : statUnsucc resetState p.1 = 0 := rfl
  have hz4 : statOutLen resetState p.1 = 0 := rfl
  have hsplit := raised_split os p.1
  have hpos := stats_pos_replay os resetState (by simp [resetState]) p hp
  omega

/-- C10 witness: the invariant evaluated at a singleton ledger. -/
theorem c10_stats_invariant_witness :
    (("X", DefectStats.mk "X" 1 1 0 [auditOf outcomeEE]) ∈
        replayOutcomes resetState [outcomeEE]) ∧
    ((1 : Nat) + 0 = 1 ∧ [auditOf outcomeEE].length = 1 ∧ 1 ≤ (1 : Nat)) :=
  ⟨by decide,
    c10_stats_invariant [outcomeEE] ("X", DefectStats.mk "X" 1 1 0 [auditOf outcomeEE])
      (by decide)⟩

/-! ## C5: success-rate round trip -/

theorem sum_map_const_one {α : Type} (l : List α) (f : α → Nat)
    (h : ∀ x ∈ l, f x = 1) : (l.map f).sum = l.length := by
  induction l with
  | nil => rfl
  | cons x xs ih =>
    rw [List.map_cons, List.sum_cons, List.length_cons,
      h x (List.mem_cons_self x xs), ih (fun y hy => h y (List.mem_cons_of_mem x hy))]
    omega

theorem raisedSuccess_countP (os : List OutcomeRecord) (k : String)
    (h : ∀ o ∈ os, raisedIn o k = 1) :
    raisedSuccessCount os k = os.countP (fun o => isSuccessOutcome o.outcome) := by
  induction os with
  | nil => rfl
  | cons o os ih =>
    have ho := h o (List.mem_cons_self o os)
    have ihs := ih (fun q hq => h q (List.mem_cons_of_mem o hq))
    by_cases hsoc : isSuccessOutcome o.outcome = true <;>
      simp [raisedSuccessCount, List.countP_cons, hsoc, bool_eq_false, ho] at ihs ⊢ <;>
        omega

theorem countP_ee_cp_le (os : List OutcomeRecord) :
    os.countP (fun o => o.outcome == some "evidence excluded") +
      os.countP (fun o => o.outcome == some "case proceeded") ≤ os.length := by
  induction os with
  | nil => simp
  | cons o os ih =>
    rw [List.countP_cons, List.countP_cons, List.length_cons]
    by_cases h1 : (o.outcome == some "evidence excluded") = true
    · have h2 : (o.outcome == some "case proceeded") = false := by
        rw [beq_iff_eq] at h1
        simp [h1]
      simp [h1, h2]
      omega
    · by_cases h2 : (o.outcome == some "case proceeded") = true <;>
        simp [bool_eq_false h1, h2, bool_eq_false] <;> omega

theorem countP_success_eq (os : List OutcomeRecord)
    (hsum : os.countP (fun o => o.outcome == some "evidence excluded") +
      os.countP (fun o => o.outcome == some "case proceeded") = os.length) :
    os.countP (fun o => isSuccessOutcome o.outcome) =
      os.countP (fun o => o.outcome == some "evidence excluded") := by
  induction os with
  | nil => simp
  | cons o os ih =>
    rw [List.countP_cons, List.countP_cons, List.length_cons] at hsum
    rw [List.countP_cons, List.countP_cons]
    by_cases h1 : (o.outcome == some "evidence excluded") = true
    · have hoe : o.outcome = some "evidence excluded" := by rwa [beq_iff_eq] at h1
      have hsucc : isSuccessOutcome o.outcome = true := by rw [hoe]; rfl
      have h2 : (o.outcome == some "case proceeded") = false := by simp [hoe]
      simp [h1, h2] at hsum
      simp [h1, hsucc]
      have := ih (by omega)
      omega
    · by_cases h2 : (o.outcome == some "case proceeded") = true
      · have hoc : o.outcome = some "case proceeded" := by rwa [beq_iff_eq] at h2
        have hsucc : isSuccessOutcome o.outcome = false := by rw [hoc]; rfl
        simp [bool_eq_false h1, h2] at hsum
        simp [bool_eq_false h1, hsucc]
        have := ih (by omega)
        omega
      · exfalso
        rw [bool_eq_false h1, bool_eq_false h2] at hsum
        have := countP_ee_cp_le os
        simp at hsum
        omega

theorem type_inv_foldTypes (o : OutcomeRecord) (ts : List String) :
    ∀ (st : SRState), (∀ p ∈ st, p.2.type = p.1) →
      ∀ p ∈ ts.foldl (recordDefectType o) st, p.2.type = p.1 := by
  induction ts with
  | nil => exact fun st h => h
  | cons t ts ih =>
    intro st hst
    rw [List.foldl_cons]
    apply ih
    rw [recordDefectType_eq_upsert]
    apply mem_upsert
    · exact hst
    · show (bumpStats o (emptyStats t)).type = t
      rfl
    · intro p hp
      show (bumpStats o p.2).type = p.1
      exact hst p hp

theorem type_inv_replay (os : List OutcomeRecord) :
    ∀ (st : SRState), (∀ p ∈ st, p.2.type = p.1) →
      ∀ p ∈ replayOutcomes st os, p.2.type = p.1 := by
  induction os with
  | nil => exact fun st h => h
  | cons o os ih =>
    intro st hst
    show ∀ p ∈ replayOutcomes (learnFromOutcome st o) os, p.2.type = p.1
    apply ih
    unfold learnFromOutcome
    rcases o.defectsRaised with _ | ts
    · exact hst
    · exact type_inv_foldTypes o ts st hst

theorem keys_eq_singleton {α : Type} (ks : List α) (k : α) (hnd : ks.Nodup)
    (hall : ∀ x ∈ ks, x = k) (hmem : k ∈ ks) : ks = [k] := by
  cases ks with
  | nil => cases hmem
  | cons a as =>
    have ha : a = k := hall a (List.mem_cons_self a as)
    cases as with
    | nil => rw [ha]
    | cons b bs =>
      exfalso
      have hb : b = k := hall b (by simp)
      rw [List.nodup_cons] at hnd
      apply hnd.1
      rw [ha, ← hb]
      exact List.mem_cons_self b bs

theorem state_singleton_of_keys {β : Type} (l : List (String × β)) (k : String)
    (h : l.map (fun p => p.1) = [k]) : ∃ v, l = [(k, v)] := by
  cases l with
  | nil => simp at h
  | cons p ps =>
    cases ps with
    | nil =>
      rw [List.map_cons, List.map_nil] at h
      have : p.1 = k := by simpa using h
      exact ⟨p.2, by cases p; simp_all⟩
    | cons q qs =>
      exfalso
      have := congrArg List.length h
      simp at this

theorem jsToFixed1_875 : jsToFixed1 ((175 : ℚ)/2) = "87.5" := by
  have h : (⌊(175 : ℚ)/2 * 10 + 1/2⌋ : ℤ) = 875 := by norm_num
  unfold jsToFixed1
  rw [h]
  rfl

/-- C5: replaying eight outcomes for type X, seven of them "evidence excluded"
and one "case proceeded", from the reset state makes getSuccessRates return a
single entry for X with totalRaised 8, successful 7, unsuccessful 1 and
successRate "87.5". -/
theorem c5_success_rate_round_trip (os : List OutcomeRecord)
    (hlen : os.length = 8)
    (hall : ∀ o ∈ os, o.defectsRaised = some ["X"])
    (hee : os.countP (fun o => o.outcome == some "evidence excluded") = 7)
    (hcp : os.countP (fun o => o.outcome == some "case proceeded") = 1) :
    ∃ e : RateEntry, getSuccessRates (replayOutcomes resetState os) = [e] ∧
      e.type = "X" ∧ e.totalRaised = 8 ∧ e.successful = 7 ∧ e.unsuccessful = 1 ∧
      e.successRate = JsStrOrNum.jstr "87.5" := by
  have hone : ∀ o ∈ os, raisedIn o "X" = 1 := by
    intro o ho
    rw [raisedIn_filter, hall o ho]
    rfl
  have hcount : raisedCount os "X" = 8 := by
    unfold raisedCount
    rw [sum_map_const_one os (fun o => raisedIn o "X") hone]
    exact hlen
  have hsuccCnt : raisedSuccessCount os "X" = 7 := by
    rw [raisedSuccess_countP os "X" hone, countP_success_eq os (by rw [hee, hcp, hlen])]
    exact hee
  have hfailCnt : raisedFailCount os "X" = 1 := by
    have := raised_split os "X"
    omega
  have ht := statTotal_replay os resetState "X"
  have hsc := statSucc_replay os resetState "X"
  have hun := statUnsucc_replay os resetState "X"
  have hz1 : statTotal resetState "X" = 0 := rfl
  have hz2 : statSucc resetState "X" = 0 := rfl
  have hz3 : statUnsucc resetState "X" = 0 := rfl
  have hsome : ∃ s, lookupAssoc (replayOutcomes resetState os) "X" = some s := by
    rcases hl : lookupAssoc (replayOutcomes resetState os) "X" with _ | s
    · exfalso
      have hzz : statTotal (replayOutcomes resetState os) "X" = 0 := by
        unfold statTotal
        rw [hl]
        rfl
      omega
    · exact ⟨s, rfl⟩
  obtain ⟨s, hs⟩ := hsome
  have hmem := lookupAssoc_mem _ _ _ hs
  have hnd := nodup_keys_replay os resetState (by simp [resetState])
  have hallkeys : ∀ p ∈ replayOutcomes resetState os, p.1 = "X" := by
    apply mem_key_replay os (fun t => t = "X") ?_ resetState (by simp [resetState])
    intro o ho t htt
    rw [hall o ho] at htt
    simpa using htt
  have hkeys : (replayOutcomes resetState os).map (fun p => p.1) = ["X"] := by
    apply keys_eq_singleton _ _ hnd
    · intro x hx
      rw [List.mem_map] at hx
      obtain ⟨p, hp, hpe⟩ := hx
      rw [← hpe]
      exact hallkeys p hp
    · exact List.mem_map.mpr ⟨("X", s), hmem, rfl⟩
  obtain ⟨v, hv⟩ := state_singleton_of_keys _ _ hkeys
  have hsv : v = s := by
    rw [hv] at hs
    unfold lookupAssoc at hs
    simp [List.find?_cons] at hs
    exact hs
  subst hsv
  have htotv : v.totalRaised = 8 := by
    have hst : statTotal (replayOutcomes resetState os) "X" = v.totalRaised := by
      unfold statTotal
      rw [hs]
      rfl
    omega
  have hsuccv : v.successful = 7 := by
    have hst : statSucc (replayOutcomes resetState os) "X" = v.successful := by
      unfold statSucc
      rw [hs]
      rfl
    omega
  have hunsv : v.unsuccessful = 1 := by
    have hst : statUnsucc (replayOutcomes resetState os) "X" = v.unsuccessful := by
      unfold statUnsucc
      rw [hs]
      rfl
    omega
  have htypev : v.type = "X" := by
    have := type_inv_replay os resetState (by simp [resetState]) ("X", v)
      (by rw [hv]; exact List.mem_cons_self _ _)
    simpa using this
  refine ⟨mkRateEntry v, ?_, ?_, ?_, ?_, ?_, ?_⟩
  · rw [hv]
    rfl
  · show (mkRateEntry v).toDefectStats.type = "X"
    simp [mkRateEntry, htypev]
  · show (mkRateEntry v).toDefectStats.totalRaised = 8
    simp [mkRateEntry, htotv]
  · show (mkRateEntry v).toDefectStats.successful = 7
    simp [mkRateEntry, hsuccv]
  · show (mkRateEntry v).toDefectStats.unsuccessful = 1
    simp [mkRateEntry, hunsv]
  · show (mkRateEntry v).successRate = JsStrOrNum.jstr "87.5"
    unfold mkRateEntry
    rw [if_pos (by omega)]
    have harg : ((v.successful : ℚ) / (v.totalRaised : ℚ)) * 100 = (175 : ℚ)/2 := by
      rw [hsuccv, htotv]
      push_cast
      norm_num
    simp only [harg, jsToFixed1_875]

/-- C5 witness: the round trip evaluated on a concrete eight-outcome ledger. -/
theorem c5_success_rate_round_trip_witness :
    ledger8.length = 8 ∧
    (∃ e : RateEntry, getSuccessRates (replayOutcomes resetState ledger8) = [e] ∧
      e.type = "X" ∧ e.totalRaised = 8 ∧ e.successful = 7 ∧ e.unsuccessful = 1 ∧
      e.successRate = JsStrOrNum.jstr "87.5") :=
  ⟨by decide,
    c5_success_rate_round_trip ledger8 (by decide) (by decide) (by decide) (by decide)⟩

/-! ## C2: the success-rate advisory branch is dead -/

theorem jsToFixed1_100 : jsToFixed1 (100 : ℚ) = "100.0" := by
  have h : (⌊(100 : ℚ) * 10 + 1/2⌋ : ℤ) = 1000 := by norm_num
  unfold jsToFixed1
  rw [h]
  rfl

/-- C2 (code bug): the stored stats never carry a successRate field, so the
comparison `successInfo.successRate > 60` of line 515 reads undefined and is
false on every input; after three successful outcomes for type X (an actual
success rate of 100%, above the 60% threshold the claim describes),
prioritizeDefects still attaches the "ensure stronger evidence" advisory, not
the "strong defect to raise" one. -/
theorem c2_dead_success_branch :
    (∀ s : DefectStats, jsGtSixty s.successRateField = false) ∧
    (60 : ℚ) < 100 ∧
    (∃ e : PrioritizedDefect, prioritizeDefects stAfter3 [defX] = [e] ∧
      e.hasHistoricalData = true ∧
      e.timesRaised = some 3 ∧
      e.successRate = some "100.0" ∧
      e.recommendation = cautionAdvisory) ∧
    cautionAdvisory ≠ strongAdvisory := by
  refine ⟨fun s => rfl, by norm_num, ?_, by decide⟩
  refine ⟨prioritizeOne stAfter3 defX, rfl, rfl, rfl, ?_, rfl⟩
  show (prioritizeOne stAfter3 defX).successRate = some "100.0"
  have hred : (prioritizeOne stAfter3 defX).successRate =
      some (jsToFixed1 ((((3 : ℕ) : ℚ)) / (((3 : ℕ)) : ℚ) * 100)) := rfl
  rw [hred]
  have harg : (((3 : ℕ) : ℚ)) / (((3 : ℕ)) : ℚ) * 100 = (100 : ℚ) := by
    push_cast
    norm_num
  rw [harg, jsToFixed1_100]

/-! ## C3: trend analysis with a zero first-half average -/

theorem ratAvg_nonneg (l : List Nat) : 0 ≤ ratAvg l := by
  unfold ratAvg
  positivity

/-- C3 (amended): with at least three records and firstAvg = 0, analyzeTrends
returns STABLE only when secondAvg is also 0; for any positive secondAvg the
WORSENING branch is taken (its guard `secondAvg > firstAvg * 1.2` holds
vacuously at 0) and the division by the zero firstAvg puts "Infinity" in the
reported percent increase. -/
theorem c3_zero_first_avg (analyses : List AnalysisRecord)
    (h3 : 3 ≤ analyses.length) (h0 : firstAvgOf analyses = 0) :
    (analyzeTrends analyses).direction =
      some (if secondAvgOf analyses = 0 then "STABLE" else "WORSENING") ∧
    (secondAvgOf analyses ≠ 0 →
      (analyzeTrends analyses).message =
        "⚠️ High-severity issues increased Infinity% in recent analyses") := by
  have hnn : 0 ≤ secondAvgOf analyses := ratAvg_nonneg _
  unfold analyzeTrends
  rw [if_neg (by omega)]
  by_cases hz : secondAvgOf analyses = 0
  · rw [h0, hz]
    rw [if_neg (by norm_num), if_neg (by norm_num)]
    constructor
    · simp
    · intro hc
      exact absurd rfl hc
  · have hpos : 0 < secondAvgOf analyses := lt_of_le_of_ne hnn (Ne.symm hz)
    rw [h0]
    rw [if_pos (by rw [zero_mul]; exact hpos)]
    constructor
    · rw [if_neg hz]
    · intro _
      show "⚠️ High-severity issues increased " ++ worseningPercentStr 0 (secondAvgOf analyses) ++
        "% in recent analyses" = _
      unfold worseningPercentStr
      rw [if_pos rfl]
      decide

theorem firstAvg_trendCex : firstAvgOf trendCexHist = 0 := by
  have h : firstHalfOf trendCexHist = [0, 0] := by decide
  unfold firstAvgOf
  rw [h]
  simp [ratAvg]

theorem secondAvg_trendCex : secondAvgOf trendCexHist = 1 := by
  have h : secondHalfOf trendCexHist = [1, 1] := by decide
  unfold secondAvgOf
  rw [h]
  simp [ratAvg]

/-- C3 (counterexample): on the four-record history with high/critical counts
[0,0,1,1] the first-half average is zero, yet analyzeTrends classifies
WORSENING (not STABLE) and the percent-change division by the zero first
average surfaces as "Infinity" in the message. -/
theorem c3_counterexample :
    3 ≤ trendCexHist.length ∧
    firstAvgOf trendCexHist = 0 ∧
    (analyzeTrends trendCexHist).direction = some "WORSENING" ∧
    (analyzeTrends trendCexHist).direction ≠ some "STABLE" ∧
    (analyzeTrends trendCexHist).message =
      "⚠️ High-severity issues increased Infinity% in recent analyses" := by
  have h1 := firstAvg_trendCex
  have h2 := secondAvg_trendCex
  have htrend : analyzeTrends trendCexHist =
      { direction := some "WORSENING",
        message := "⚠️ High-severity issues increased " ++
          worseningPercentStr (firstAvgOf trendCexHist) (secondAvgOf trendCexHist) ++
          "% in recent analyses",
        recommendation := some "Systematic review of documentation processes recommended",
        severity := some "HIGH",
        firstAvg := some (jsToFixed1 (firstAvgOf trendCexHist)),
        secondAvg := some (jsToFixed1 (secondAvgOf trendCexHist)) } := by
    unfold analyzeTrends
    rw [if_neg (by decide)]
    rw [if_pos (by rw [h1, h2]; norm_num)]
  refine ⟨by decide, h1, ?_, ?_, ?_⟩
  · rw [htrend]
  · rw [htrend]
    simp
  · rw [htrend]
    show "⚠️ High-severity issues increased " ++
      worseningPercentStr (firstAvgOf trendCexHist) (secondAvgOf trendCexHist) ++
      "% in recent analyses" = _
    rw [h1]
    unfold worseningPercentStr
    rw [if_pos rfl]
    decide

theorem firstAvg_trendZero : firstAvgOf trendZeroHist = 0 := by
  have h : firstHalfOf trendZeroHist = [0, 0] := by decide
  unfold firstAvgOf
  rw [h]
  simp [ratAvg]

theorem secondAvg_trendZero : secondAvgOf trendZeroHist = 2 := by
  have h : secondHalfOf trendZeroHist = [2, 2] := by decide
  unfold secondAvgOf
  rw [h]
  simp [ratAvg]
  norm_num

/-- C3 witness: the amended theorem evaluated on the history with counts
[0,0,2,2]. -/
theorem c3_zero_first_avg_witness :
    3 ≤ trendZeroHist.length ∧ firstAvgOf trendZeroHist = 0 ∧
    (analyzeTrends trendZeroHist).direction = some "WORSENING" := by
  have h3 : (3 : ℕ) ≤ trendZeroHist.length := by decide
  have h0 := firstAvg_trendZero
  have hz : ¬ secondAvgOf trendZeroHist = 0 := by
    rw [secondAvg_trendZero]
    norm_num
  have h := (c3_zero_first_avg trendZeroHist h3 h0).1
  rw [if_neg hz] at h
  exact ⟨h3, h0, h⟩

/-! ## C6: compliance-rate formula -/

theorem round1_zero : round1 0 = 0 := by
  unfold round1
  norm_num

theorem round1_half_int (n : ℤ) : round1 ((n : ℚ)/2) = (n : ℚ)/2 := by
  unfold round1
  have harg : (n : ℚ)/2 * 10 + 1/2 = ((5 * n : ℤ) : ℚ) + 1/2 := by
    push_cast
    ring
  rw [harg, Int.floor_int_add]
  have hhalf : (⌊(1 : ℚ)/2⌋ : ℤ) = 0 := by norm_num
  rw [hhalf]
  push_cast
  ring

theorem round1_compliance (q : ℚ) (hq : 0 ≤ q) :
    0 ≤ round1 (max 0 (100 - round1 q * 5)) ∧
    (round1 (max 0 (100 - round1 q * 5)) = 0 ↔ 20 ≤ round1 q) := by
  have hm0 : (0 : ℤ) ≤ ⌊q * 10 + 1/2⌋ := Int.floor_nonneg.mpr (by linarith)
  have ha : round1 q = ((⌊q * 10 + 1/2⌋ : ℤ) : ℚ)/10 := rfl
  rw [ha]
  set m := ⌊q * 10 + 1/2⌋ with hm
  have harg : 100 - (m : ℚ)/10 * 5 = ((200 - m : ℤ) : ℚ)/2 := by
    push_cast
    ring
  rw [harg]
  by_cases hcase : 200 ≤ m
  · have hle : ((200 - m : ℤ) : ℚ)/2 ≤ 0 := by
      have : ((200 - m : ℤ) : ℚ) ≤ 0 := by
        have hz : (200 - m : ℤ) ≤ 0 := by omega
        exact_mod_cast hz
      linarith
    rw [max_eq_left hle, round1_zero]
    refine ⟨le_refl 0, ?_, fun _ => rfl⟩
    intro _
    rw [le_div_iff (by norm_num : (0:ℚ) < 10)]
    have : (200 : ℚ) ≤ (m : ℚ) := by exact_mod_cast hcase
    linarith
  · push_neg at hcase
    have hpos : 0 < ((200 - m : ℤ) : ℚ)/2 := by
      have : (0 : ℚ) < ((200 - m : ℤ) : ℚ) := by
        have hz : (0 : ℤ) < 200 - m := by omega
        exact_mod_cast hz
      linarith
    rw [max_eq_right (le_of_lt hpos), round1_half_int (200 - m)]
    refine ⟨le_of_lt hpos, ?_, ?_⟩
    · intro h0
      exfalso
      rw [h0] at hpos
      exact lt_irrefl 0 hpos
    · intro h20
      exfalso
      rw [le_div_iff (by norm_num : (0:ℚ) < 10)] at h20
      have hc : ((200 - m : ℤ) : ℚ) ≤ 0 := by push_cast; linarith
      have : (200 - m : ℤ) ≤ 0 := by exact_mod_cast hc
      omega

theorem compliance_fields (analyses : List AnalysisRecord)
    (h : analyses.isEmpty = false) :
    (calculateCompliance analyses).averageIssuesPerDoc =
      round1 (((analyses.flatMap extractFindings).length : ℚ) / (analyses.length : ℚ)) ∧
    (calculateCompliance analyses).complianceRate =
      round1 (max 0 (100 - (calculateCompliance analyses).averageIssuesPerDoc * 5)) := by
  unfold calculateCompliance
  rw [if_neg (by rw [h]; simp)]
  exact ⟨rfl, rfl⟩

/-- C6: complianceRate always equals max(0, 100 − averageIssuesPerDoc × 5)
rounded to one decimal, is never negative, is zero exactly when the average
issues per document reach 20, and the empty history returns the all-default
metrics with rate 100. -/
theorem c6_compliance_formula (analyses : List AnalysisRecord) :
    (calculateCompliance analyses).complianceRate =
      round1 (max 0 (100 - (calculateCompliance analyses).averageIssuesPerDoc * 5)) ∧
    0 ≤ (calculateCompliance analyses).complianceRate ∧
    ((calculateCompliance analyses).complianceRate = 0 ↔
      20 ≤ (calculateCompliance analyses).averageIssuesPerDoc) ∧
    (analyses = [] →
      (calculateCompliance analyses).complianceRate = 100 ∧
      (calculateCompliance analyses).averageIssuesPerDoc = 0 ∧
      (calculateCompliance analyses).mostCommonIssue = "None" ∧
      (calculateCompliance analyses).totalAnalyses = 0 ∧
      (calculateCompliance analyses).totalIssues = none) := by
  by_cases hemp : analyses = []
  · subst hemp
    have hc : calculateCompliance ([] : List AnalysisRecord) =
        { totalAnalyses := 0, averageIssuesPerDoc := 0, complianceRate := 100,
          mostCommonIssue := "None" } := rfl
    rw [hc]
    refine ⟨?_, by norm_num, ?_, fun _ => ⟨rfl, rfl, rfl, rfl, rfl⟩⟩
    · show (100 : ℚ) = round1 (max 0 (100 - 0 * 5))
      have : max (0 : ℚ) (100 - 0 * 5) = 100 := by norm_num
      rw [this]
      unfold round1
      norm_num
    · show ((100 : ℚ) = 0 ↔ 20 ≤ (0 : ℚ))
      constructor
      · intro h
        norm_num at h
      · intro h
        norm_num at h
  · have hne : analyses.isEmpty = false := by
      cases analyses
      · exact absurd rfl hemp
      · rfl
    obtain ⟨havg, hrate⟩ := compliance_fields analyses hne
    have hqnn : 0 ≤ ((analyses.flatMap extractFindings).length : ℚ) / (analyses.length : ℚ) :=
      div_nonneg (Nat.cast_nonneg _) (Nat.cast_nonneg _)
    have hcore := round1_compliance _ hqnn
    refine ⟨hrate, ?_, ?_, fun he => absurd he hemp⟩
    · rw [hrate, havg]
      exact hcore.1
    · rw [hrate, havg]
      exact hcore.2

theorem hist20_avg : (calculateCompliance hist20).averageIssuesPerDoc = 20 := by
  have h := (compliance_fields hist20 (by decide)).1
  have hlen : ((hist20.flatMap extractFindings).length : ℚ) = 20 := by
    have : (hist20.flatMap extractFindings).length = 20 := by decide
    rw [this]
    norm_num
  have hone : ((hist20.length : ℕ) : ℚ) = 1 := by
    have : hist20.length = 1 := by decide
    rw [this]
    norm_num
  rw [h, hlen, hone]
  unfold round1
  norm_num

/-- C6 witness: the formula evaluated at the empty history and at a history
whose average issues per document is exactly 20. -/
theorem c6_compliance_formula_witness :
    (calculateCompliance ([] : List AnalysisRecord)).complianceRate = 100 ∧
    (calculateCompliance ([] : List AnalysisRecord)).mostCommonIssue = "None" ∧
    20 ≤ (calculateCompliance hist20).averageIssuesPerDoc ∧
    (calculateCompliance hist20).complianceRate = 0 := by
  have h1 := (c6_compliance_formula []).2.2.2 rfl
  refine ⟨h1.1, h1.2.2.1, ?_, ?_⟩
  · rw [hist20_avg]
  · exact (c6_compliance_formula hist20).2.2.1.mpr (by rw [hist20_avg])

/-! ## C7: novel-issue detection -/

/-- C7: an empty history yields no novel issues; otherwise the result carries
exactly one entry per occurrence in the latest record whose type appears in no
earlier record (occurrences of a repeated novel type are not deduplicated). -/
theorem c7_novel_issues :
    identifyNovelIssues ([] : List AnalysisRecord) = [] ∧
    ∀ (analyses : List AnalysisRecord) (latest : AnalysisRecord),
      analyses.getLast? = some latest → ∀ t : String,
        ((identifyNovelIssues analyses).filter (fun e => e.type == t)).length =
          if ∃ a ∈ analyses.dropLast, ∃ d ∈ extractFindings a, d.type = t then 0
          else ((extractFindings latest).filter (fun d => d.type == t)).length := by
  constructor
  · rfl
  · intro analyses latest hlast t
    unfold identifyNovelIssues
    rw [hlast]
    rw [List.filter_map, List.length_map]
    have hcomp : ((fun e : NovelIssue => e.type == t) ∘ mkNovel) =
        fun d : Defect => d.type == t := rfl
    rw [hcomp, List.filter_filter]
    by_cases hex : ∃ a ∈ analyses.dropLast, ∃ d ∈ extractFindings a, d.type = t
    · rw [if_pos hex]
      have hmem : t ∈ prevTypesOf analyses := by
        unfold prevTypesOf
        rw [List.mem_map]
        obtain ⟨a, ha, d, hd, hdt⟩ := hex
        exact ⟨d, List.mem_flatMap.mpr ⟨a, ha, hd⟩, hdt⟩
      rw [List.length_eq_zero]
      rw [List.filter_eq_nil_iff]
      intro d _
      by_cases hdt : d.type = t
      · simp [hdt, hmem]
      · simp [hdt]
    · rw [if_neg hex]
      apply congrArg List.length
      apply List.filter_congr
      intro d _
      by_cases hdt : d.type = t
      · have hnm : t ∉ prevTypesOf analyses := by
          intro hm
          apply hex
          unfold prevTypesOf at hm
          rw [List.mem_map] at hm
          obtain ⟨d', hd', hdt'⟩ := hm
          rw [List.mem_flatMap] at hd'
          obtain ⟨a, ha, hda⟩ := hd'
          exact ⟨a, ha, d', hda, hdt'⟩
        simp [hdt, hnm]
      · simp [hdt]

/-- C7 witness: the count formula evaluated on a two-record history whose
latest record repeats one novel type twice and repeats one known type. -/
theorem c7_novel_issues_witness :
    novelHist.getLast? = some recNew ∧
    ((identifyNovelIssues novelHist).filter (fun e => e.type == "new-type")).length = 2 ∧
    ((identifyNovelIssues novelHist).filter (fun e => e.type == "old-type")).length = 0 := by
  refine ⟨rfl, ?_, ?_⟩
  · have h := c7_novel_issues.2 novelHist recNew rfl "new-type"
    rw [if_neg (by decide)] at h
    rw [h]
    decide
  · have h := c7_novel_issues.2 novelHist recNew rfl "old-type"
    rw [if_pos (by decide)] at h
    exact h

/-! ## C8: recommendation ordering and the silent [3,5) band -/

theorem specialRecs_mem (g : DefectGroup) (r : Recommendation) (hr : r ∈ specialRecs g) :
    r.issue = g.type ∧ r.frequency = g.count ∧ isSpecialGroup g = true := by
  unfold specialRecs at hr
  rcases List.mem_append.mp hr with h12 | h3
  · rcases List.mem_append.mp h12 with h1 | h2
    · by_cases hb : rule55d g = true
      · rw [if_pos hb] at h1
        rw [List.mem_singleton] at h1
        subst h1
        exact ⟨rfl, rfl, by simp [isSpecialGroup, hb]⟩
      · rw [if_neg hb] at h1
        cases h1
    · by_cases hb : rule49 g = true
      · rw [if_pos hb] at h2
        rw [List.mem_singleton] at h2
        subst h2
        exact ⟨rfl, rfl, by simp [isSpecialGroup, hb]⟩
      · rw [if_neg hb] at h2
        cases h2
  · by_cases hb : rule464 g = true
    · rw [if_pos hb] at h3
      rw [List.mem_singleton] at h3
      subst h3
      exact ⟨rfl, rfl, by simp [isSpecialGroup, hb]⟩
    · rw [if_neg hb] at h3
      cases h3

theorem recsForGroup_structure (acc : List Recommendation) (g : DefectGroup) :
    ∃ extra, recsForGroup acc g = acc ++ extra ∧
      ∀ r ∈ extra, r.issue = g.type ∧ r.frequency = g.count ∧
        (isSpecialGroup g = true ∨ 5 ≤ g.count) := by
  unfold recsForGroup
  by_cases hgen : (((acc ++ specialRecs g).find? (fun r => r.issue == g.type)).isNone ∧
      5 ≤ g.count)
  · rw [if_pos hgen]
    refine ⟨specialRecs g ++ [genericRec g], by rw [List.append_assoc], ?_⟩
    intro r hr
    rcases List.mem_append.mp hr with h | h
    · have := specialRecs_mem g r h
      exact ⟨this.1, this.2.1, Or.inl this.2.2⟩
    · rw [List.mem_singleton] at h
      subst h
      exact ⟨rfl, rfl, Or.inr hgen.2⟩
  · rw [if_neg hgen]
    refine ⟨specialRecs g, rfl, ?_⟩
    intro r hr
    have := specialRecs_mem g r hr
    exact ⟨this.1, this.2.1, Or.inl this.2.2⟩

theorem foldRecs_mem (gs : List DefectGroup) :
    ∀ (acc : List Recommendation), ∀ r ∈ gs.foldl recsForGroup acc,
      r ∈ acc ∨ ∃ g ∈ gs, r.issue = g.type ∧ r.frequency = g.count ∧
        (isSpecialGroup g = true ∨ 5 ≤ g.count) := by
  induction gs with
  | nil => exact fun acc r hr => Or.inl hr
  | cons g gs ih =>
    intro acc r hr
    rw [List.foldl_cons] at hr
    rcases ih (recsForGroup acc g) r hr with hacc | hgs
    · obtain ⟨extra, heq, hextra⟩ := recsForGroup_structure acc g
      rw [heq] at hacc
      rcases List.mem_append.mp hacc with h | h
      · exact Or.inl h
      · exact Or.inr ⟨g, List.mem_cons_self g gs, hextra r h⟩
    · obtain ⟨g', hg', hprop⟩ := hgs
      exact Or.inr ⟨g', List.mem_cons_of_mem g hg', hprop⟩

/-- C8: generateRecommendations is sorted by ascending priority and, within a
priority, by descending frequency; and every returned entry stems from a
recurring group that either matches a specialized substring rule or recurred
at least 5 times — so recurring groups with count in [3,5) matching no rule
contribute nothing. -/
theorem c8_recommendation_order (analyses : List AnalysisRecord) :
    (generateRecommendations analyses).Sorted recOrder ∧
    ∀ r ∈ generateRecommendations analyses,
      ∃ g ∈ findRecurringDefects analyses,
        r.issue = g.type ∧ r.frequency = g.count ∧
        (isSpecialGroup g = true ∨ 5 ≤ g.count) := by
  constructor
  · exact List.sorted_insertionSort recOrder _
  · intro r hr
    unfold generateRecommendations at hr
    rw [List.mem_insertionSort] at hr
    rcases foldRecs_mem _ [] r hr with h | h
    · cases h
    · exact h

/-- C8 witness: the theorem evaluated on a history with one generic recurring
group of count 5. -/
theorem c8_recommendation_order_witness :
    (generateRecommendations genericHist).Sorted recOrder ∧
    generateRecommendations genericHist = [genericRec genericGroup] ∧
    (∃ g ∈ findRecurringDefects genericHist,
      (genericRec genericGroup).issue = g.type ∧
      (genericRec genericGroup).frequency = g.count ∧
      (isSpecialGroup g = true ∨ 5 ≤ g.count)) :=
  ⟨(c8_recommendation_order genericHist).1, by decide,
    (c8_recommendation_order genericHist).2 (genericRec genericGroup) (by decide)⟩
